import Mathlib

/-!
A shallow embedding of the proxTV Python binding (`prox_tv/__init__.py`,
with the native signatures taken from the cffi declarations in
`prox_tv/prox_tv_build.py`).

The binding validates arguments, converts them to float64 buffers,
allocates the solution buffer `y` and a 3-slot diagnostics buffer `info`,
and dispatches one call into the native library.  The native C/C++ solvers
themselves are not part of the Python source; where their behaviour is
needed it is modelled from the spec (each such definition says so in its
doc comment).

Python objects and numpy arrays are modelled over `ℚ` (exact rationals in
place of IEEE doubles; none of the verified properties depend on
floating-point rounding).  Array object identity is modelled by a `Store`
of arrays addressed by `Ref`s, so that freshness/aliasing facts (which
object is returned, which buffers the native call may write) are
expressible.
-/

/-- Python exception classes that the binding can raise. -/
inductive PyErr where
  | assertionError
  | attributeError
  | typeError
  | indexError
  | valueError
deriving DecidableEq, Repr

/-- The numpy dtypes relevant to the binding. -/
inductive Dtype where
  | float64
  | int64
  | boolean
deriving DecidableEq, Repr

/-- A numpy ndarray: dtype, shape, and flat data laid out column-major
(the binding converts everything to Fortran order before the native call,
so the model keeps all data column-major throughout). -/
structure NdArray where
  dtype : Dtype
  shape : List Nat
  data : List ℚ
deriving DecidableEq, Repr

/-- `np.size`: total number of elements. -/
def NdArray.size (a : NdArray) : Nat := a.shape.prod

/-- `np.zeros(n)`: flat float64 zero vector. -/
def NdArray.zeros1 (n : Nat) : NdArray :=
  { dtype := Dtype.float64, shape := [n], data := List.replicate n 0 }

/-- `np.zeros(shape)`: float64 zero array of the given shape. -/
def NdArray.zerosShape (sh : List Nat) : NdArray :=
  { dtype := Dtype.float64, shape := sh, data := List.replicate sh.prod 0 }

/-- The Python objects the binding's loosely typed arguments can take. -/
inductive PyObj where
  | int : Int → PyObj
  | float : ℚ → PyObj
  | bool : Bool → PyObj
  | ndarray : NdArray → PyObj
  | pylist : List PyObj → PyObj

/-- Python's `float(x)` builtin on the object kinds we model (lists and
arrays raise `TypeError`). -/
def pyFloatFn : PyObj → Except PyErr ℚ
  | PyObj.float q => Except.ok q
  | PyObj.int n => Except.ok (n : ℚ)
  | PyObj.bool b => Except.ok (if b then 1 else 0)
  | _ => Except.error PyErr.typeError

/-- `force_float_scalar(x)` from `__init__.py`: `float(x)` unless `x` is
already a Python float, in which case `x` itself is returned. -/
def force_float_scalar (x : PyObj) : Except PyErr ℚ :=
  match x with
  | PyObj.float q => Except.ok q
  | _ => pyFloatFn x

/-- `force_float_matrix(x)` from `__init__.py`: reads `x.dtype` (an
`AttributeError` for any non-ndarray, e.g. a plain Python list) and
converts to float64 with `astype` when needed, returning `x` unchanged
when it is already float64.  `astype('float')` keeps the element values
and sets the dtype. -/
def force_float_matrix (x : PyObj) : Except PyErr NdArray :=
  match x with
  | PyObj.ndarray a =>
      if a.dtype ≠ Dtype.float64 then Except.ok { a with dtype := Dtype.float64 }
      else Except.ok a
  | _ => Except.error PyErr.attributeError

/-- Identity of a Python array object: an index into the `Store`. -/
abbrev Ref := Nat

/-- The heap of live numpy arrays; refs are list positions. -/
structure Store where
  arrays : List NdArray
deriving DecidableEq, Repr

def Store.size (s : Store) : Nat := s.arrays.length

def Store.get (s : Store) (r : Ref) : Option NdArray := s.arrays[r]?

/-- Allocate a fresh array object; its ref is the previous store size. -/
def Store.alloc (s : Store) (a : NdArray) : Store × Ref :=
  (Store.mk (s.arrays ++ [a]), s.arrays.length)

/-- Overwrite the front of `old` with `new`, keeping `old`'s length. -/
def overwrite (old new : List ℚ) : List ℚ :=
  new.take old.length ++ old.drop new.length

/-- In-place write into a buffer: dtype and shape are untouched. -/
def NdArray.writeData (a : NdArray) (d : List ℚ) : NdArray :=
  { a with data := overwrite a.data d }

/-- Write data into the array object at `r` (no-op on a dangling ref). -/
def Store.write (s : Store) (r : Ref) (d : List ℚ) : Store :=
  match s.get r with
  | some a => Store.mk (s.arrays.set r (a.writeData d))
  | none => s

/-- Dereference; the `valueError` case is unreachable for refs produced by
this embedding. -/
def getArr (s : Store) (r : Ref) : Except PyErr NdArray :=
  match s.get r with
  | some a => Except.ok a
  | none => Except.error PyErr.valueError

/-- `force_float_matrix` applied to an ndarray argument held in the store:
already-float64 arrays are returned as the same object (an alias), other
dtypes are copied into a fresh float64 array by `astype`. -/
def ffmRef (s : Store) (r : Ref) : Except PyErr (Store × Ref) := do
  let a ← getArr s r
  if a.dtype ≠ Dtype.float64 then
    pure (s.alloc { a with dtype := Dtype.float64 })
  else
    pure (s, r)

/-- `np.asfortranarray(x, dtype='float64')` on a store ref: since the model
keeps all data column-major, only the dtype test can force a copy;
a float64 input is returned as the same object. -/
def asfortranRef (s : Store) (r : Ref) : Except PyErr (Store × Ref) := do
  let a ← getArr s r
  if a.dtype ≠ Dtype.float64 then
    pure (s.alloc { a with dtype := Dtype.float64 })
  else
    pure (s, r)

/-- The native entry points declared in the cffi cdef of
`prox_tv_build.py`. -/
inductive LibFn where
  | tautString_TV1
  | PN_TV1
  | TV1D_denoise
  | dp
  | tautString_TV1_Weighted
  | PN_TV1_Weighted
  | more_TV2
  | PG_TV2
  | morePG_TV2
  | GP_TVp
  | FW_TVp
  | GPFW_TVp
  | DR2_TV
  | PD2_TV
  | Yang2_TV
  | CondatChambollePock2_TV
  | DR2L1W_TV
  | PD_TV
deriving DecidableEq, Repr

/-- One positional argument of a `_call` invocation, as the Python side
hands it over: store-held ndarrays become pointers (refs), scalars go
through unchanged, tuples of numbers are converted by cffi, arrays built
inside the wrapper from non-ndarray inputs are carried by value. -/
inductive Arg where
  | int : Int → Arg
  | float : ℚ → Arg
  | ref : Ref → Arg
  | tup : List ℚ → Arg
  | shape : List Nat → Arg
  | arrv : NdArray → Arg
  | obj : PyObj → Arg
  | null

/-- The single native library invocation a wrapper performs. -/
structure SolverCall where
  fn : LibFn
  args : List Arg

/-- Modelled from the spec: the native C solvers are not part of the
Python source under verification; per the spec the input signal is
read-only during solving and a solver writes only its solution buffer and
its 3-slot diagnostics buffer.  An `Oracle` supplies whatever contents the
native solver would write there. -/
structure Oracle where
  out : SolverCall → List ℚ
  info : SolverCall → List ℚ

/-- Modelled from the spec: executing the native call writes the solver
output into the output buffer `yr` and, when one was passed, diagnostics
into the info buffer; every other array object is left untouched. -/
def runNative (ora : Oracle) (s : Store) (c : SolverCall) (yr : Ref) (ir : Option Ref) : Store :=
  let s1 := s.write yr (ora.out c)
  match ir with
  | some r => s1.write r (ora.info c)
  | none => s1

/-- What a wrapper produces: the final heap, the native call it made (if
any), the ref of the diagnostics buffer it passed (if any), and the ref of
the single object it returns to the caller (`return y`). -/
structure CallResult where
  store : Store
  call : Option SolverCall
  infoRef : Option Ref
  ret : Ref

/-- A Python `assert`: `AssertionError` when the condition is false. -/
def pyAssert (b : Bool) : Except PyErr Unit :=
  if b then Except.ok () else Except.error PyErr.assertionError

/-- Shared tail of every wrapper: perform the native call and return `y`. -/
def finishRun (ora : Oracle) (s : Store) (c : SolverCall) (yr : Ref) (ir : Option Ref) :
    CallResult :=
  CallResult.mk (runNative ora s c yr ir) (some c) ir yr

/-- `a.shape[i]` with Python `IndexError` semantics. -/
def shapeAt (a : NdArray) (i : Nat) : Except PyErr Nat :=
  match a.shape[i]? with
  | some n => Except.ok n
  | none => Except.error PyErr.indexError

/-- `a[i]` on a flat float array, with Python `IndexError` semantics. -/
def dataAt (a : NdArray) (i : Nat) : Except PyErr ℚ :=
  match a.data[i]? with
  | some q => Except.ok q
  | none => Except.error PyErr.indexError

/-- Embedding of `tv1_1d(x, w, sigma=0.05, method='tautstring')`.
`px` is (store, ref) after `x = force_float_matrix(x)`, `py` after
`y = np.zeros(np.size(x))`. -/
def tv1_1d (ora : Oracle) (s : Store) (xr : Ref) (w sigma : ℚ) (method : String) :
    Except PyErr CallResult := do
  pyAssert (method == "tautstring" || method == "pn" || method == "condat" || method == "dp")
  pyAssert (decide (0 ≤ w))
  let px ← ffmRef s xr
  let xa ← getArr px.1 px.2
  let py := px.1.alloc (NdArray.zeros1 xa.size)
  if method == "tautstring" then
    let c : SolverCall := SolverCall.mk LibFn.tautString_TV1
      [Arg.ref px.2, Arg.float w, Arg.ref py.2, Arg.int (xa.size : Int)]
    pure (finishRun ora py.1 c py.2 none)
  else if method == "pn" then
    let pinf := py.1.alloc (NdArray.zeros1 3)
    let c : SolverCall := SolverCall.mk LibFn.PN_TV1
      [Arg.ref px.2, Arg.float w, Arg.ref py.2, Arg.ref pinf.2, Arg.int (xa.size : Int),
        Arg.float sigma, Arg.null]
    pure (finishRun ora pinf.1 c py.2 (some pinf.2))
  else if method == "condat" then
    let c : SolverCall := SolverCall.mk LibFn.TV1D_denoise
      [Arg.ref px.2, Arg.ref py.2, Arg.int (xa.size : Int), Arg.float w]
    pure (finishRun ora py.1 c py.2 none)
  else
    let c : SolverCall := SolverCall.mk LibFn.dp
      [Arg.int (xa.size : Int), Arg.ref px.2, Arg.float w, Arg.ref py.2]
    pure (finishRun ora py.1 c py.2 none)

/-- Embedding of `tv1w_1d(x, w, method='tautstring', sigma=0.05)`.  Note
there is no membership assertion on `method`: anything other than
`'tautstring'` falls into the `else` branch (projected Newton). -/
def tv1w_1d (ora : Oracle) (s : Store) (xr wr : Ref) (method : String) (sigma : ℚ) :
    Except PyErr CallResult := do
  let wa0 ← getArr s wr
  pyAssert (wa0.data.all (fun q => decide (0 ≤ q)))
  let xa0 ← getArr s xr
  pyAssert (decide ((xa0.size : Int) - 1 = (wa0.size : Int)))
  let pw ← ffmRef s wr
  let px ← ffmRef pw.1 xr
  let xa ← getArr px.1 px.2
  let py := px.1.alloc (NdArray.zeros1 xa.size)
  if method == "tautstring" then
    let c : SolverCall := SolverCall.mk LibFn.tautString_TV1_Weighted
      [Arg.ref px.2, Arg.ref pw.2, Arg.ref py.2, Arg.int (xa.size : Int)]
    pure (finishRun ora py.1 c py.2 none)
  else
    let pinf := py.1.alloc (NdArray.zeros1 3)
    let c : SolverCall := SolverCall.mk LibFn.PN_TV1_Weighted
      [Arg.ref px.2, Arg.ref pw.2, Arg.ref py.2, Arg.ref pinf.2, Arg.int (xa.size : Int),
        Arg.float sigma, Arg.null]
    pure (finishRun ora pinf.1 c py.2 (some pinf.2))

/-- Embedding of `tv2_1d(x, w, method='mspg')`.  The `mspg` branch
re-allocates the info buffer, as the source does; the trailing no-call
branch mirrors the Python `if/elif/elif` falling through to `return y`
(unreachable after the membership assert). -/
def tv2_1d (ora : Oracle) (s : Store) (xr : Ref) (w : ℚ) (method : String) :
    Except PyErr CallResult := do
  pyAssert (decide (0 ≤ w))
  pyAssert (method == "ms" || method == "pg" || method == "mspg")
  let px ← ffmRef s xr
  let xa ← getArr px.1 px.2
  let pinf := px.1.alloc (NdArray.zeros1 3)
  let py := pinf.1.alloc (NdArray.zeros1 xa.size)
  if method == "ms" then
    let c : SolverCall := SolverCall.mk LibFn.more_TV2
      [Arg.ref px.2, Arg.float w, Arg.ref py.2, Arg.ref pinf.2, Arg.int (xa.size : Int)]
    pure (finishRun ora py.1 c py.2 (some pinf.2))
  else if method == "pg" then
    let c : SolverCall := SolverCall.mk LibFn.PG_TV2
      [Arg.ref px.2, Arg.float w, Arg.ref py.2, Arg.ref pinf.2, Arg.int (xa.size : Int)]
    pure (finishRun ora py.1 c py.2 (some pinf.2))
  else if method == "mspg" then
    let pinf2 := py.1.alloc (NdArray.zeros1 3)
    let c : SolverCall := SolverCall.mk LibFn.morePG_TV2
      [Arg.ref px.2, Arg.float w, Arg.ref py.2, Arg.ref pinf2.2, Arg.int (xa.size : Int),
        Arg.null]
    pure (finishRun ora pinf2.1 c py.2 (some pinf2.2))
  else
    pure (CallResult.mk py.1 none (some pinf.2) py.2)

/-- Embedding of `tvp_1d(x, w, p, method='gpfw', max_iters=0)`.  The
`max_iters` argument is accepted but never forwarded: the lp solver
signatures in the cffi cdef take no iteration-cap parameter. -/
def tvp_1d (ora : Oracle) (s : Store) (xr : Ref) (w p : ℚ) (method : String)
    (max_iters : Int) : Except PyErr CallResult := do
  pyAssert (method == "gp" || method == "fw" || method == "gpfw")
  pyAssert (decide (0 ≤ w))
  pyAssert (decide (1 ≤ p))
  let px ← ffmRef s xr
  let xa ← getArr px.1 px.2
  let pinf := px.1.alloc (NdArray.zeros1 3)
  let py := pinf.1.alloc (NdArray.zeros1 xa.size)
  let fn : LibFn :=
    if method == "gp" then LibFn.GP_TVp
    else if method == "fw" then LibFn.FW_TVp
    else LibFn.GPFW_TVp
  let c : SolverCall := SolverCall.mk fn
    [Arg.ref px.2, Arg.float w, Arg.ref py.2, Arg.ref pinf.2, Arg.int (xa.size : Int),
      Arg.float p, Arg.null]
  pure (finishRun ora py.1 c py.2 (some pinf.2))

/-- Embedding of `tv1_2d(x, w, n_threads=1, max_iters=0, method='dr')`. -/
def tv1_2d (ora : Oracle) (s : Store) (xr : Ref) (w : ℚ) (n_threads max_iters : Int)
    (method : String) : Except PyErr CallResult := do
  pyAssert (decide (0 ≤ w))
  pyAssert (method == "dr" || method == "pd" || method == "yang" || method == "condat" ||
    method == "chambolle-pock")
  let px ← asfortranRef s xr
  let xa ← getArr px.1 px.2
  let py := px.1.alloc (NdArray.zerosShape xa.shape)
  let pinf := py.1.alloc (NdArray.zeros1 3)
  if method == "yang" then
    let m0 ← shapeAt xa 0
    let m1 ← shapeAt xa 1
    let c : SolverCall := SolverCall.mk LibFn.Yang2_TV
      [Arg.int (m0 : Int), Arg.int (m1 : Int), Arg.ref px.2, Arg.float w, Arg.ref py.2,
        Arg.int max_iters, Arg.ref pinf.2]
    pure (finishRun ora pinf.1 c py.2 (some pinf.2))
  else if method == "dr" then
    let m0 ← shapeAt xa 0
    let m1 ← shapeAt xa 1
    let c : SolverCall := SolverCall.mk LibFn.DR2_TV
      [Arg.int (m0 : Int), Arg.int (m1 : Int), Arg.ref px.2, Arg.float w, Arg.float w,
        Arg.float 1, Arg.float 1, Arg.ref py.2, Arg.int n_threads, Arg.int max_iters,
        Arg.ref pinf.2]
    pure (finishRun ora pinf.1 c py.2 (some pinf.2))
  else if method == "pd" then
    let c : SolverCall := SolverCall.mk LibFn.PD2_TV
      [Arg.ref px.2, Arg.tup [w, w], Arg.tup [1, 1], Arg.tup [1, 2], Arg.ref py.2,
        Arg.ref pinf.2, Arg.shape xa.shape, Arg.int 2, Arg.int 2, Arg.int n_threads,
        Arg.int max_iters]
    pure (finishRun ora pinf.1 c py.2 (some pinf.2))
  else
    let algorithm : Int := if method == "condat" then 0 else 1
    let m0 ← shapeAt xa 0
    let m1 ← shapeAt xa 1
    let c : SolverCall := SolverCall.mk LibFn.CondatChambollePock2_TV
      [Arg.int (m0 : Int), Arg.int (m1 : Int), Arg.ref px.2, Arg.float w, Arg.ref py.2,
        Arg.int algorithm, Arg.int max_iters, Arg.ref pinf.2]
    pure (finishRun ora pinf.1 c py.2 (some pinf.2))

/-- Embedding of `tv1w_2d(x, w_col, w_row, max_iters=0, n_threads=1)`.
The `M, N = x.shape` unpacking raises `ValueError` for non-2-D input. -/
def tv1w_2d (ora : Oracle) (s : Store) (xr wcr wrr : Ref) (max_iters n_threads : Int) :
    Except PyErr CallResult := do
  let wca ← getArr s wcr
  pyAssert (wca.data.all (fun q => decide (0 ≤ q)))
  let wra ← getArr s wrr
  pyAssert (wra.data.all (fun q => decide (0 ≤ q)))
  let xa0 ← getArr s xr
  let mn ← (match xa0.shape with
    | [m, n] => Except.ok (m, n)
    | _ => Except.error PyErr.valueError)
  pyAssert (decide (wca.shape.map (fun k => (k : Int)) = [(mn.1 : Int) - 1, (mn.2 : Int)]))
  pyAssert (decide (wra.shape.map (fun k => (k : Int)) = [(mn.1 : Int), (mn.2 : Int) - 1]))
  let px ← asfortranRef s xr
  let xa ← getArr px.1 px.2
  let py := px.1.alloc (NdArray.zerosShape xa.shape)
  let pwc ← asfortranRef py.1 wcr
  let pwr ← asfortranRef pwc.1 wrr
  let pinf := pwr.1.alloc (NdArray.zeros1 3)
  let c : SolverCall := SolverCall.mk LibFn.DR2L1W_TV
    [Arg.int (mn.1 : Int), Arg.int (mn.2 : Int), Arg.ref px.2, Arg.ref pwc.2, Arg.ref pwr.2,
      Arg.ref py.2, Arg.int n_threads, Arg.int max_iters, Arg.ref pinf.2]
  pure (finishRun ora pinf.1 c py.2 (some pinf.2))

/-- Embedding of `tvp_2d(x, w_col, w_row, p_col, p_row, n_threads=1,
max_iters=0)`. -/
def tvp_2d (ora : Oracle) (s : Store) (xr : Ref) (w_col w_row p_col p_row : ℚ)
    (n_threads max_iters : Int) : Except PyErr CallResult := do
  pyAssert (decide (0 ≤ w_col))
  pyAssert (decide (0 ≤ w_row))
  pyAssert (decide (1 ≤ p_col))
  pyAssert (decide (1 ≤ p_row))
  let pinf := s.alloc (NdArray.zeros1 3)
  let px ← asfortranRef pinf.1 xr
  let xa ← getArr px.1 px.2
  let py := px.1.alloc (NdArray.zerosShape xa.shape)
  let m0 ← shapeAt xa 0
  let m1 ← shapeAt xa 1
  let c : SolverCall := SolverCall.mk LibFn.DR2_TV
    [Arg.int (m0 : Int), Arg.int (m1 : Int), Arg.ref px.2, Arg.float w_col, Arg.float w_row,
      Arg.float p_col, Arg.float p_row, Arg.ref py.2, Arg.int n_threads, Arg.int max_iters,
      Arg.ref pinf.2]
  pure (finishRun ora py.1 c py.2 (some pinf.2))

/-- Python `len()` on the object kinds `ws`/`ds`/`ps` can take. -/
def pyLen : PyObj → Except PyErr Int
  | PyObj.pylist l => Except.ok (l.length : Int)
  | PyObj.ndarray a =>
      (match (a.shape[0]? : Option Nat) with
        | some n => Except.ok (Int.ofNat n)
        | none => Except.error PyErr.typeError)
  | _ => Except.error PyErr.typeError

/-- Python indexing `o[i]` on the object kinds `ds` can take. -/
def pyIndex : PyObj → Nat → Except PyErr PyObj
  | PyObj.pylist l, i =>
      (match l[i]? with
        | some v => Except.ok v
        | none => Except.error PyErr.indexError)
  | PyObj.ndarray a, i =>
      (match a.data[i]? with
        | some q => Except.ok (match a.dtype with
            | Dtype.float64 => PyObj.float q
            | Dtype.int64 => PyObj.int q.num
            | Dtype.boolean => PyObj.bool (decide (q ≠ 0)))
        | none => Except.error PyErr.indexError)
  | _, _ => Except.error PyErr.typeError

/-- Python bitwise `&` on the numeric objects we model (a `TypeError` on
floats, exactly as in Python). -/
def pyAnd : PyObj → PyObj → Except PyErr PyObj
  | PyObj.int m, PyObj.int n => Except.ok (PyObj.int (Int.land m n))
  | PyObj.int m, PyObj.bool b => Except.ok (PyObj.int (Int.land m (if b then 1 else 0)))
  | PyObj.bool b, PyObj.int n => Except.ok (PyObj.int (Int.land (if b then 1 else 0) n))
  | PyObj.bool a, PyObj.bool b => Except.ok (PyObj.bool (a && b))
  | _, _ => Except.error PyErr.typeError

/-- Python `==` between the numeric objects we model (objects of
dissimilar kinds compare unequal rather than raising). -/
def pyEq : PyObj → PyObj → Except PyErr Bool
  | PyObj.int m, PyObj.int n => Except.ok (decide (m = n))
  | PyObj.int m, PyObj.float q => Except.ok (decide ((m : ℚ) = q))
  | PyObj.float q, PyObj.int n => Except.ok (decide (q = (n : ℚ)))
  | PyObj.float a, PyObj.float b => Except.ok (decide (a = b))
  | PyObj.bool a, PyObj.bool b => Except.ok (a == b)
  | PyObj.bool a, PyObj.int n => Except.ok (decide ((if a then (1 : Int) else 0) = n))
  | PyObj.int m, PyObj.bool b => Except.ok (decide (m = (if b then 1 else 0)))
  | _, _ => Except.ok false

/-- The dispatch condition of `tvgen`, exactly as Python parses the source
expression `len(ds) == 2 & ds[0] == 1 & ds[1] == 2`: since `&` binds
tighter than `==`, this is the chained comparison
`len(ds) == (2 & ds[0])  and  (2 & ds[0]) == (1 & ds[1])  and
(1 & ds[1]) == 2`, with each operand evaluated once, left to right, and
later operands not evaluated once a comparison fails. -/
def tvgenCond (ds : PyObj) : Except PyErr Bool := do
  let a ← pyLen ds
  let d0 ← pyIndex ds 0
  let b ← pyAnd (PyObj.int 2) d0
  let e1 ← pyEq (PyObj.int a) b
  if e1 then do
    let d1 ← pyIndex ds 1
    let c ← pyAnd (PyObj.int 1) d1
    let e2 ← pyEq b c
    if e2 then pyEq c (PyObj.int 2) else pure false
  else
    pure false

/-- Embedding of `tvgen(x, ws, ds, ps, n_threads=1, max_iters=0)`.  Note
the missing validation: no assert inspects the entries of `ws` or `ps`. -/
def tvgen (ora : Oracle) (s : Store) (xr : Ref) (ws ds ps : PyObj)
    (n_threads max_iters : Int) : Except PyErr CallResult := do
  let lw ← pyLen ws
  let ld ← pyLen ds
  let lp ← pyLen ps
  pyAssert (decide (lw = ld))
  pyAssert (decide (lw = lp))
  pyAssert (decide (1 ≤ n_threads))
  pyAssert (decide (0 ≤ max_iters))
  let pinf := s.alloc (NdArray.zeros1 3)
  let px ← asfortranRef pinf.1 xr
  let wsA ← force_float_matrix ws
  let psA ← force_float_matrix ps
  let xa ← getArr px.1 px.2
  let py := px.1.alloc (NdArray.zerosShape xa.shape)
  let cond ← tvgenCond ds
  if cond then
    let m0 ← shapeAt xa 0
    let m1 ← shapeAt xa 1
    let w0 ← dataAt wsA 0
    let w1 ← dataAt wsA 1
    let p0 ← dataAt psA 0
    let p1 ← dataAt psA 1
    let c : SolverCall := SolverCall.mk LibFn.DR2_TV
      [Arg.int (m0 : Int), Arg.int (m1 : Int), Arg.ref px.2, Arg.float w0, Arg.float w1,
        Arg.float p0, Arg.float p1, Arg.ref py.2, Arg.int n_threads, Arg.int max_iters,
        Arg.ref pinf.2]
    pure (finishRun ora py.1 c py.2 (some pinf.2))
  else if lw == 2 then
    let c : SolverCall := SolverCall.mk LibFn.PD2_TV
      [Arg.ref px.2, Arg.arrv wsA, Arg.arrv psA, Arg.obj ds, Arg.ref py.2, Arg.ref pinf.2,
        Arg.shape xa.shape, Arg.int (xa.shape.length : Int), Arg.int 2, Arg.int n_threads,
        Arg.int max_iters]
    pure (finishRun ora py.1 c py.2 (some pinf.2))
  else
    let c : SolverCall := SolverCall.mk LibFn.PD_TV
      [Arg.ref px.2, Arg.arrv wsA, Arg.arrv psA, Arg.obj ds, Arg.ref py.2, Arg.ref pinf.2,
        Arg.shape xa.shape, Arg.int (xa.shape.length : Int), Arg.int lw, Arg.int n_threads,
        Arg.int max_iters]
    pure (finishRun ora py.1 c py.2 (some pinf.2))

/-- Position of the iteration-cap parameter in each native signature of
the cffi cdef (`prox_tv_build.py`); `none` when the signature has no such
parameter (all 1-D solvers, among them every lp solver). -/
def maxItersIndex : LibFn → Option Nat
  | LibFn.Yang2_TV => some 5
  | LibFn.DR2_TV => some 9
  | LibFn.PD2_TV => some 10
  | LibFn.CondatChambollePock2_TV => some 6
  | LibFn.DR2L1W_TV => some 7
  | LibFn.PD_TV => some 10
  | _ => none

/-- The native function a wrapper invocation dispatched to, if it
succeeded and made a call. -/
def calledFn : Except PyErr CallResult → Option LibFn
  | Except.ok r => r.call.map SolverCall.fn
  | Except.error _ => none

/-- The argument list of the dispatched native call ([] otherwise). -/
def argsOf : Except PyErr CallResult → List Arg
  | Except.ok r =>
      (match r.call with
        | some c => c.args
        | none => [])
  | Except.error _ => []

/-- The object returned to the Python caller, when the call succeeded. -/
def retOf : Except PyErr CallResult → Option Ref
  | Except.ok r => some r.ret
  | Except.error _ => none

/-- The diagnostics buffer the wrapper passed to the native call. -/
def infoRefOf : Except PyErr CallResult → Option Ref
  | Except.ok r => r.infoRef
  | Except.error _ => none

/-- Whether the wrapper invocation succeeded. -/
def isOkB : Except PyErr CallResult → Bool
  | Except.ok _ => true
  | Except.error _ => false

/-- The final heap of a successful wrapper invocation. -/
def storeOf : Except PyErr CallResult → Store
  | Except.ok r => r.store
  | Except.error _ => Store.mk []

/-- The iteration-cap argument actually handed to the native solver:
look up the cap position of the dispatched signature and read that
argument. -/
def capArg (e : Except PyErr CallResult) : Option Arg := do
  let fn ← calledFn e
  let i ← maxItersIndex fn
  (argsOf e)[i]?

/-- Whether an argument is the integer `m` (used to assert that a value
does not occur anywhere in an argument list). -/
def argIsInt (a : Arg) (m : Int) : Bool :=
  match a with
  | Arg.int n => n == m
  | _ => false

/-! ### The TV proximity objective, modelled from the spec

The native solvers live outside the Python source; the spec defines the
problem they solve.  The objective and the notion of solution below are
modelled from the spec's problem statements. -/

/-- Sum of squared componentwise differences (the `‖x−y‖²` part of every
objective in the spec), walking both lists together. -/
def sqDiff : List ℚ → List ℚ → ℚ
  | a :: as, b :: bs => (a - b) ^ 2 + sqDiff as bs
  | _, _ => 0

/-- The l1 total-variation seminorm `Σ |y_i − y_{i+1}|`. -/
def tvSum : List ℚ → ℚ
  | a :: b :: rest => |a - b| + tvSum (b :: rest)
  | _ => 0

/-- The per-edge weighted l1 total-variation penalty `Σ w_i |y_i − y_{i+1}|`. -/
def wTvSum : List ℚ → List ℚ → ℚ
  | w :: ws, a :: b :: rest => w * |a - b| + wTvSum ws (b :: rest)
  | _, _ => 0

/-- Modelled from the spec: the objective `½‖x−y‖² + w·P(y)` of a TV
proximity problem with penalty functional `P`. -/
def tvObjective (P : List ℚ → ℚ) (x y : List ℚ) (w : ℚ) : ℚ :=
  sqDiff x y / 2 + w * P y

/-- Modelled from the spec: the solvers return the optimum of the
proximity problem (unique by strict convexity); a solution is a feasible
point whose objective value is minimal. -/
def IsTVSolution (P : List ℚ → ℚ) (x : List ℚ) (w : ℚ) (y : List ℚ) : Prop :=
  y.length = x.length ∧
  ∀ z : List ℚ, z.length = x.length → tvObjective P x y w ≤ tvObjective P x z w

/-- The result of a wrapper invocation known to have succeeded (dummy
result otherwise); lets closed statements name the concrete outcome. -/
def resOf (e : Except PyErr CallResult) : CallResult :=
  match e with
  | Except.ok r => r
  | Except.error _ => CallResult.mk (Store.mk []) none none 0

/-! ### Concrete inputs used by the closed witnesses and counterexamples -/

/-- A solver oracle writing nothing (the frame results hold for every
oracle; the closed evaluations just need one). -/
def Oracle0 : Oracle := Oracle.mk (fun _ => []) (fun _ => [])

def xMat22 : NdArray := NdArray.mk Dtype.float64 [2, 2] [0, 1, 2, 3]

/-- Heap holding one 2×2 float64 matrix at ref 0. -/
def st2x2 : Store := Store.mk [xMat22]

def ws11 : PyObj := PyObj.ndarray (NdArray.mk Dtype.float64 [2] [1, 1])

/-- The documented DR dispatch input: one term per axis of a 2-D signal. -/
def ds12 : PyObj := PyObj.pylist [PyObj.int 1, PyObj.int 2]

def wsNeg : PyObj := PyObj.ndarray (NdArray.mk Dtype.float64 [2] [-1, 1])

/-- Heap holding one 4-vector at ref 0. -/
def st1v : Store := Store.mk [NdArray.mk Dtype.float64 [4] [1, 2, 3, 4]]

/-- Heap holding a 4-vector at ref 0 and a 3-vector of weights at ref 1. -/
def stW1 : Store := Store.mk [NdArray.mk Dtype.float64 [4] [1, 2, 3, 4],
  NdArray.mk Dtype.float64 [3] [1, 1, 1]]

/-- Heap with a 2×2 matrix at 0, a 1×2 column-weight matrix at 1 and a
2×1 row-weight matrix at 2. -/
def stW2 : Store := Store.mk [xMat22, NdArray.mk Dtype.float64 [1, 2] [1, 1],
  NdArray.mk Dtype.float64 [2, 1] [1, 1]]

/-- The weights argument as its documentation states it: a Python list. -/
def wsList : PyObj := PyObj.pylist [PyObj.float 1, PyObj.float 1]

/-! ### Basic reduction lemmas for the `Except` plumbing -/

@[simp] theorem exBind_ok {α β : Type} (a : α) (f : α → Except PyErr β) :
    (Except.ok a >>= f) = f a := rfl

@[simp] theorem exBind_error {α β : Type} (e : PyErr) (f : α → Except PyErr β) :
    ((Except.error e : Except PyErr α) >>= f) = Except.error e := rfl

@[simp] theorem exPure {α : Type} (a : α) : (pure a : Except PyErr α) = Except.ok a := rfl

@[simp] theorem pyAssert_true : pyAssert true = Except.ok () := rfl

@[simp] theorem pyAssert_false : pyAssert false = Except.error PyErr.assertionError := rfl

/-! ### Heap lemmas: allocation is fresh, writes are local -/

theorem getArr_ok {s : Store} {r : Ref} {a : NdArray} (h : s.get r = some a) :
    getArr s r = Except.ok a := by
  unfold getArr
  rw [h]

theorem Store.lt_size_of_get {s : Store} {r : Ref} {a : NdArray}
    (h : s.get r = some a) : r < s.size := by
  rcases Nat.lt_or_ge r s.arrays.length with hlt | hge
  · exact hlt
  · exfalso
    have hn : s.arrays[r]? = none := by
      rw [List.getElem?_eq_none_iff]
      exact hge
    rw [Store.get, hn] at h
    exact Option.noConfusion h

theorem Store.get_alloc_lt (s : Store) (a : NdArray) (t : Ref) (h : t < s.size) :
    (s.alloc a).1.get t = s.get t := by
  simp only [Store.alloc, Store.get]
  exact List.getElem?_append_left h

theorem Store.alloc_ref (s : Store) (a : NdArray) : (s.alloc a).2 = s.size := rfl

theorem Store.get_alloc_self (s : Store) (a : NdArray) :
    (s.alloc a).1.get s.size = some a := by
  simp only [Store.alloc, Store.get, Store.size]
  exact List.getElem?_concat_length s.arrays a

theorem Store.size_alloc (s : Store) (a : NdArray) : (s.alloc a).1.size = s.size + 1 := by
  simp [Store.alloc, Store.size]

theorem Store.get_write_ne (s : Store) (r : Ref) (d : List ℚ) (t : Ref) (h : t ≠ r) :
    (s.write r d).get t = s.get t := by
  unfold Store.write
  cases hg : s.get r with
  | none => rfl
  | some a =>
      simp only [Store.get]
      exact List.getElem?_set_ne (fun he => h he.symm)

theorem Store.get_write_self (s : Store) (r : Ref) (d : List ℚ) (a : NdArray)
    (h : s.get r = some a) : (s.write r d).get r = some (a.writeData d) := by
  unfold Store.write
  rw [h]
  simp only [Store.get]
  have hr : r < s.arrays.length := Store.lt_size_of_get h
  simp [List.getElem?_set_self hr]

@[simp] theorem NdArray.writeData_shape (a : NdArray) (d : List ℚ) :
    (a.writeData d).shape = a.shape := rfl

@[simp] theorem NdArray.writeData_dtype (a : NdArray) (d : List ℚ) :
    (a.writeData d).dtype = a.dtype := rfl

theorem runNative_get_ne (ora : Oracle) (s : Store) (c : SolverCall) (yr : Ref)
    (ir : Option Ref) (t : Ref) (hy : t ≠ yr) (hi : ∀ i, ir = some i → t ≠ i) :
    (runNative ora s c yr ir).get t = s.get t := by
  unfold runNative
  cases ir with
  | none => exact Store.get_write_ne _ _ _ _ hy
  | some i =>
      rw [Store.get_write_ne _ _ _ _ (hi i rfl), Store.get_write_ne _ _ _ _ hy]

theorem runNative_get_y (ora : Oracle) (s : Store) (c : SolverCall) (yr : Ref)
    (ir : Option Ref) (a : NdArray) (hy : s.get yr = some a)
    (hi : ∀ i, ir = some i → yr ≠ i) :
    ∃ d, (runNative ora s c yr ir).get yr = some (a.writeData d) := by
  unfold runNative
  refine Exists.intro (ora.out c) ?hh
  cases ir with
  | none => exact Store.get_write_self _ _ _ _ hy
  | some i =>
      rw [Store.get_write_ne _ _ _ _ (hi i rfl)]
      exact Store.get_write_self _ _ _ _ hy

/-- Heap growth: `s1` is `s0` with zero or more arrays appended (the only
way the embedding ever changes the set of live objects). -/
def Extends (s0 s1 : Store) : Prop := ∃ l, s1.arrays = s0.arrays ++ l

theorem Extends.self (s : Store) : Extends s s := Exists.intro [] (by simp)

theorem Extends.trans {a b c : Store} (h1 : Extends a b) (h2 : Extends b c) :
    Extends a c := by
  obtain ⟨l1, e1⟩ := h1
  obtain ⟨l2, e2⟩ := h2
  exact Exists.intro (l1 ++ l2) (by rw [e2, e1, List.append_assoc])

theorem Extends.size_le {a b : Store} (h : Extends a b) : a.size ≤ b.size := by
  obtain ⟨l, e⟩ := h
  unfold Store.size
  rw [e]
  simp

theorem Extends.get_lt {a b : Store} (h : Extends a b) (t : Ref) (ht : t < a.size) :
    b.get t = a.get t := by
  obtain ⟨l, e⟩ := h
  unfold Store.get
  rw [e]
  exact List.getElem?_append_left ht

theorem Extends.alloc_fst (s : Store) (a : NdArray) : Extends s (s.alloc a).1 :=
  Exists.intro [a] (Eq.refl (s.arrays ++ [a]))

/-- Everything `ffmRef` guarantees on a valid ref: the call succeeds, the
heap only grows (old objects untouched), and the result ref is a valid
object with the same shape and data (only the dtype may change). -/
theorem ffmRef_spec (s : Store) (r : Ref) (xa : NdArray) (h : s.get r = some xa) :
    ∃ s2 r2 b, ffmRef s r = Except.ok (s2, r2) ∧
      Extends s s2 ∧ r2 < s2.size ∧
      s2.get r2 = some b ∧ b.shape = xa.shape ∧ b.data = xa.data := by
  by_cases hd : xa.dtype = Dtype.float64
  · refine Exists.intro s (Exists.intro r (Exists.intro xa ?hh))
    have he : ffmRef s r = Except.ok (s, r) := by
      unfold ffmRef
      rw [getArr_ok h]
      simp [hd]
    rw [he]
    exact And.intro rfl (And.intro (Extends.self s) (And.intro (Store.lt_size_of_get h)
      (And.intro h (And.intro rfl rfl))))
  · refine Exists.intro (s.alloc { xa with dtype := Dtype.float64 }).1
      (Exists.intro s.size (Exists.intro { xa with dtype := Dtype.float64 } ?hh2))
    have he : ffmRef s r =
        Except.ok ((s.alloc { xa with dtype := Dtype.float64 }).1, s.size) := by
      unfold ffmRef
      rw [getArr_ok h]
      simp [hd, Store.alloc, Store.size]
    rw [he]
    refine And.intro rfl (And.intro (Extends.alloc_fst s _) (And.intro ?e2 (And.intro ?e4
      (And.intro rfl rfl))))
    case e2 => rw [Store.size_alloc]; exact Nat.lt_succ_self _
    case e4 => exact Store.get_alloc_self s _

/-- `asfortranRef` guarantees the same facts as `ffmRef`. -/
theorem asfortranRef_spec (s : Store) (r : Ref) (xa : NdArray) (h : s.get r = some xa) :
    ∃ s2 r2 b, asfortranRef s r = Except.ok (s2, r2) ∧
      Extends s s2 ∧ r2 < s2.size ∧
      s2.get r2 = some b ∧ b.shape = xa.shape ∧ b.data = xa.data := by
  by_cases hd : xa.dtype = Dtype.float64
  · refine Exists.intro s (Exists.intro r (Exists.intro xa ?hh))
    have he : asfortranRef s r = Except.ok (s, r) := by
      unfold asfortranRef
      rw [getArr_ok h]
      simp [hd]
    rw [he]
    exact And.intro rfl (And.intro (Extends.self s) (And.intro (Store.lt_size_of_get h)
      (And.intro h (And.intro rfl rfl))))
  · refine Exists.intro (s.alloc { xa with dtype := Dtype.float64 }).1
      (Exists.intro s.size (Exists.intro { xa with dtype := Dtype.float64 } ?hh2))
    have he : asfortranRef s r =
        Except.ok ((s.alloc { xa with dtype := Dtype.float64 }).1, s.size) := by
      unfold asfortranRef
      rw [getArr_ok h]
      simp [hd, Store.alloc, Store.size]
    rw [he]
    refine And.intro rfl (And.intro (Extends.alloc_fst s _) (And.intro ?e2 (And.intro ?e4
      (And.intro rfl rfl))))
    case e2 => rw [Store.size_alloc]; exact Nat.lt_succ_self _
    case e4 => exact Store.get_alloc_self s _

theorem finishRun_frame (ora : Oracle) (sf : Store) (c : SolverCall) (yr : Ref)
    (ir : Option Ref) (t : Ref) (hy : t ≠ yr) (hi : ∀ i, ir = some i → t ≠ i) :
    (finishRun ora sf c yr ir).store.get t = sf.get t :=
  runNative_get_ne ora sf c yr ir t hy hi

theorem finishRun_y (ora : Oracle) (sf : Store) (c : SolverCall) (yr : Ref)
    (ir : Option Ref) (a : NdArray) (hy : sf.get yr = some a)
    (hi : ∀ i, ir = some i → yr ≠ i) :
    ∃ d, (finishRun ora sf c yr ir).store.get yr = some (a.writeData d) :=
  runNative_get_y ora sf c yr ir a hy hi

/-- The shared frame argument for every wrapper branch.  `s` is the
caller's heap, `s2` the heap just before the solution buffer `A` is
allocated, `sf` the heap handed to the native call (reached from the
allocation by further allocations only), `ir` the diagnostics buffer if
one is passed.  Conclusions: caller-visible objects are untouched, the
returned buffer is fresh, distinct from the diagnostics buffer, and holds
an array of `A`'s shape. -/
theorem finish_spec (ora : Oracle) (s s2 sf : Store) (c : SolverCall) (A : NdArray)
    (ir : Option Ref)
    (hext0 : Extends s s2)
    (hext1 : Extends (s2.alloc A).1 sf)
    (hir : ∀ i, ir = some i → s.size ≤ i ∧ (s2.alloc A).2 ≠ i) :
    (∀ t, t < s.size → (finishRun ora sf c (s2.alloc A).2 ir).store.get t = s.get t) ∧
    s.size ≤ (s2.alloc A).2 ∧
    (∀ i, ir = some i → (s2.alloc A).2 ≠ i) ∧
    (∃ d, (finishRun ora sf c (s2.alloc A).2 ir).store.get (s2.alloc A).2
        = some (A.writeData d)) := by
  have hyr : (s2.alloc A).2 = s2.size := Store.alloc_ref _ _
  have hssz : s.size ≤ s2.size := hext0.size_le
  refine And.intro ?f1 (And.intro ?f2 (And.intro (fun i hi => (hir i hi).2) ?f4))
  case f1 =>
    intro t ht
    rw [finishRun_frame _ _ _ _ _ _ ?hne (fun i hi => ?hnei)]
    case hne => rw [hyr]; exact Nat.ne_of_lt (lt_of_lt_of_le ht hssz)
    case hnei => exact Nat.ne_of_lt (lt_of_lt_of_le ht (hir i hi).1)
    have hex : Extends s sf :=
      (hext0.trans (Extends.alloc_fst s2 A)).trans hext1
    exact hex.get_lt t ht
  case f2 => rw [hyr]; exact hssz
  case f4 =>
    have hy0 : sf.get ((s2.alloc A).2) = some A := by
      have hlt : (s2.alloc A).2 < (s2.alloc A).1.size := by
        rw [hyr, Store.size_alloc]
        exact Nat.lt_succ_self _
      rw [hext1.get_lt _ hlt, hyr]
      exact Store.get_alloc_self s2 A
    exact finishRun_y ora sf c _ ir A hy0 (fun i hi => (hir i hi).2)

theorem sqDiff_nonneg : ∀ x y : List ℚ, 0 ≤ sqDiff x y := by
  intro x
  induction x with
  | nil => intro y; cases y <;> simp [sqDiff]
  | cons a as ih =>
      intro y
      cases y with
      | nil => simp [sqDiff]
      | cons b bs =>
          have h1 : (0 : ℚ) ≤ (a - b) ^ 2 := sq_nonneg _
          have h2 := ih bs
          simp only [sqDiff]
          linarith

theorem sqDiff_self : ∀ x : List ℚ, sqDiff x x = 0 := by
  intro x
  induction x with
  | nil => simp [sqDiff]
  | cons a as ih => simp [sqDiff, ih]

theorem sqDiff_eq_zero : ∀ x y : List ℚ, y.length = x.length → sqDiff x y = 0 → y = x := by
  intro x
  induction x with
  | nil =>
      intro y hl _
      exact List.length_eq_zero.mp hl
  | cons a as ih =>
      intro y hl hz
      cases y with
      | nil => simp at hl
      | cons b bs =>
          simp only [sqDiff] at hz
          have h1 : (0 : ℚ) ≤ (a - b) ^ 2 := sq_nonneg _
          have h2 : (0 : ℚ) ≤ sqDiff as bs := sqDiff_nonneg as bs
          have hsq : (a - b) ^ 2 = 0 := by linarith
          have hb : b = a := by
            have := pow_eq_zero_iff (n := 2) (by norm_num) |>.mp hsq
            linarith [sub_eq_zero.mp this]
          have hrest : bs = as := by
            refine ih bs ?hlen ?hze
            · simpa using hl
            · linarith
          rw [hb, hrest]

theorem tvObjective_zero_self_le (P : List ℚ → ℚ) (x z : List ℚ) :
    tvObjective P x x 0 ≤ tvObjective P x z 0 := by
  unfold tvObjective
  rw [sqDiff_self]
  have := sqDiff_nonneg x z
  simp
  linarith

theorem wTvSum_zero : ∀ ws y : List ℚ, (∀ q ∈ ws, q = 0) → wTvSum ws y = 0 := by
  intro ws
  induction ws with
  | nil => intro y _; cases y <;> simp [wTvSum]
  | cons w ws ih =>
      intro y hz
      cases y with
      | nil => simp [wTvSum]
      | cons a rest =>
          cases rest with
          | nil => simp [wTvSum]
          | cons b bs =>
              have hw : w = 0 := hz w (List.mem_cons_self _ _)
              have := ih (b :: bs) (fun q hq => hz q (List.mem_cons_of_mem _ hq))
              simp [wTvSum, hw, this]

/-! ### Per-wrapper success specifications -/

theorem zeros1_write_shape (b : NdArray) (n : Nat) (d : List ℚ) (h : b.size = n) :
    ((NdArray.zeros1 b.size).writeData d).shape = [n] := by
  rw [NdArray.writeData_shape]
  unfold NdArray.zeros1
  rw [h]

/-- On any successful `tv1_1d` call: the caller's objects (in particular
`x` and any weight arrays) are unchanged, the returned object is freshly
allocated, distinct from the diagnostics buffer, and is a vector of
`np.size(x)` entries. -/
theorem tv1_1d_ok_spec (ora : Oracle) (s : Store) (xr : Ref) (w sigma : ℚ) (method : String)
    (xa : NdArray) (r : CallResult)
    (hx : s.get xr = some xa)
    (hok : tv1_1d ora s xr w sigma method = Except.ok r) :
    (∀ t, t < s.size → r.store.get t = s.get t) ∧
    s.size ≤ r.ret ∧
    (∀ i, r.infoRef = some i → r.ret ≠ i) ∧
    (∃ ya, r.store.get r.ret = some ya ∧ ya.shape = [xa.size]) := by
  unfold tv1_1d at hok
  cases hb1 : (method == "tautstring" || method == "pn" || method == "condat" ||
      method == "dp") with
  | false => rw [hb1] at hok; exact absurd hok (by simp)
  | true =>
  rw [hb1] at hok
  cases hw : decide (0 ≤ w) with
  | false => rw [hw] at hok; exact absurd hok (by simp)
  | true =>
  rw [hw] at hok
  obtain ⟨s2, r2, b, hffm, hext, hr2, hget, hshape, hdata⟩ := ffmRef_spec s xr xa hx
  rw [hffm] at hok
  simp only [pyAssert_true, exBind_ok, getArr_ok hget] at hok
  have hbsize : b.size = xa.size := by unfold NdArray.size; rw [hshape]
  by_cases hm1 : (method == "tautstring") = true
  · rw [if_pos hm1] at hok
    simp only [exPure, Except.ok.injEq] at hok
    subst hok
    obtain ⟨g1, g2, g3, g4⟩ := finish_spec ora s s2 _ _ (NdArray.zeros1 b.size) none hext
      (Extends.self _) (fun i hi => Option.noConfusion hi)
    refine And.intro g1 (And.intro g2 (And.intro (fun i hi => Option.noConfusion hi) ?_))
    obtain ⟨d, hd⟩ := g4
    exact Exists.intro _ (And.intro hd (zeros1_write_shape b xa.size d hbsize))
  · rw [if_neg hm1] at hok
    have hirPn : ∀ i,
        (some ((s2.alloc (NdArray.zeros1 b.size)).1.alloc (NdArray.zeros1 3)).2 :
          Option Ref) = some i →
        s.size ≤ i ∧ (s2.alloc (NdArray.zeros1 b.size)).2 ≠ i := by
      intro i hi
      rw [← Option.some.inj hi]
      constructor
      · rw [Store.alloc_ref, Store.size_alloc]
        exact le_trans hext.size_le (Nat.le_succ_of_le (le_refl _))
      · rw [Store.alloc_ref, Store.alloc_ref, Store.size_alloc]
        exact Nat.ne_of_lt (Nat.lt_succ_self _)
    by_cases hm2 : (method == "pn") = true
    · rw [if_pos hm2] at hok
      simp only [exPure, Except.ok.injEq] at hok
      subst hok
      obtain ⟨g1, g2, g3, g4⟩ := finish_spec ora s s2 _ _ (NdArray.zeros1 b.size)
        (some ((s2.alloc (NdArray.zeros1 b.size)).1.alloc (NdArray.zeros1 3)).2) hext
        (Extends.alloc_fst _ _) hirPn
      refine And.intro g1 (And.intro g2 (And.intro g3 ?_))
      obtain ⟨d, hd⟩ := g4
      exact Exists.intro _ (And.intro hd (zeros1_write_shape b xa.size d hbsize))
    · rw [if_neg hm2] at hok
      by_cases hm3 : (method == "condat") = true
      · rw [if_pos hm3] at hok
        simp only [exPure, Except.ok.injEq] at hok
        subst hok
        obtain ⟨g1, g2, g3, g4⟩ := finish_spec ora s s2 _ _ (NdArray.zeros1 b.size) none hext
          (Extends.self _) (fun i hi => Option.noConfusion hi)
        refine And.intro g1 (And.intro g2 (And.intro (fun i hi => Option.noConfusion hi) ?_))
        obtain ⟨d, hd⟩ := g4
        exact Exists.intro _ (And.intro hd (zeros1_write_shape b xa.size d hbsize))
      · rw [if_neg hm3] at hok
        simp only [exPure, Except.ok.injEq] at hok
        subst hok
        obtain ⟨g1, g2, g3, g4⟩ := finish_spec ora s s2 _ _ (NdArray.zeros1 b.size) none hext
          (Extends.self _) (fun i hi => Option.noConfusion hi)
        refine And.intro g1 (And.intro g2 (And.intro (fun i hi => Option.noConfusion hi) ?_))
        obtain ⟨d, hd⟩ := g4
        exact Exists.intro _ (And.intro hd (zeros1_write_shape b xa.size d hbsize))

/-- On any successful `tv1w_1d` call: the caller's objects (the signal and
the weight vector) are unchanged, the returned object is fresh, distinct
from the diagnostics buffer, and is a vector of `np.size(x)` entries. -/
theorem tv1w_1d_ok_spec (ora : Oracle) (s : Store) (xr wr : Ref) (method : String) (sigma : ℚ)
    (xa wa : NdArray) (r : CallResult)
    (hx : s.get xr = some xa) (hw : s.get wr = some wa)
    (hok : tv1w_1d ora s xr wr method sigma = Except.ok r) :
    (∀ t, t < s.size → r.store.get t = s.get t) ∧
    s.size ≤ r.ret ∧
    (∀ i, r.infoRef = some i → r.ret ≠ i) ∧
    (∃ ya, r.store.get r.ret = some ya ∧ ya.shape = [xa.size]) := by
  unfold tv1w_1d at hok
  rw [getArr_ok hw] at hok
  simp only [exBind_ok] at hok
  cases hb1 : wa.data.all (fun q => decide (0 ≤ q)) with
  | false => rw [hb1] at hok; exact absurd hok (by simp)
  | true =>
  rw [hb1] at hok
  rw [getArr_ok hx] at hok
  simp only [pyAssert_true, exBind_ok] at hok
  cases hb2 : decide ((xa.size : Int) - 1 = (wa.size : Int)) with
  | false => rw [hb2] at hok; exact absurd hok (by simp)
  | true =>
  rw [hb2] at hok
  obtain ⟨sW, rW, bw, hffmW, hextW, hrW, hgetW, hshW, hdaW⟩ := ffmRef_spec s wr wa hw
  rw [hffmW] at hok
  have hx1 : sW.get xr = some xa := by
    rw [hextW.get_lt xr (Store.lt_size_of_get hx)]
    exact hx
  obtain ⟨sX, rX, bx, hffmX, hextX, hrX, hgetX, hshX, hdaX⟩ := ffmRef_spec sW xr xa hx1
  simp only [pyAssert_true, exBind_ok, hffmX, getArr_ok hgetX] at hok
  have hext : Extends s sX := hextW.trans hextX
  have hbsize : bx.size = xa.size := by unfold NdArray.size; rw [hshX]
  by_cases hm1 : (method == "tautstring") = true
  · rw [if_pos hm1] at hok
    simp only [exPure, Except.ok.injEq] at hok
    subst hok
    obtain ⟨g1, g2, g3, g4⟩ := finish_spec ora s sX _ _ (NdArray.zeros1 bx.size) none hext
      (Extends.self _) (fun i hi => Option.noConfusion hi)
    refine And.intro g1 (And.intro g2 (And.intro (fun i hi => Option.noConfusion hi) ?_))
    obtain ⟨d, hd⟩ := g4
    exact Exists.intro _ (And.intro hd (zeros1_write_shape bx xa.size d hbsize))
  · rw [if_neg hm1] at hok
    simp only [exPure, Except.ok.injEq] at hok
    subst hok
    have hirPn : ∀ i,
        (some ((sX.alloc (NdArray.zeros1 bx.size)).1.alloc (NdArray.zeros1 3)).2 :
          Option Ref) = some i →
        s.size ≤ i ∧ (sX.alloc (NdArray.zeros1 bx.size)).2 ≠ i := by
      intro i hi
      rw [← Option.some.inj hi]
      constructor
      · rw [Store.alloc_ref, Store.size_alloc]
        exact le_trans hext.size_le (Nat.le_succ_of_le (le_refl _))
      · rw [Store.alloc_ref, Store.alloc_ref, Store.size_alloc]
        exact Nat.ne_of_lt (Nat.lt_succ_self _)
    obtain ⟨g1, g2, g3, g4⟩ := finish_spec ora s sX _ _ (NdArray.zeros1 bx.size)
      (some ((sX.alloc (NdArray.zeros1 bx.size)).1.alloc (NdArray.zeros1 3)).2) hext
      (Extends.alloc_fst _ _) hirPn
    refine And.intro g1 (And.intro g2 (And.intro g3 ?_))
    obtain ⟨d, hd⟩ := g4
    exact Exists.intro _ (And.intro hd (zeros1_write_shape bx xa.size d hbsize))

/-- On any successful `tv2_1d` call the same frame facts hold; its info
buffer is allocated before the solution buffer, and the `mspg` branch
re-allocates it. -/
theorem tv2_1d_ok_spec (ora : Oracle) (s : Store) (xr : Ref) (w : ℚ) (method : String)
    (xa : NdArray) (r : CallResult)
    (hx : s.get xr = some xa)
    (hok : tv2_1d ora s xr w method = Except.ok r) :
    (∀ t, t < s.size → r.store.get t = s.get t) ∧
    s.size ≤ r.ret ∧
    (∀ i, r.infoRef = some i → r.ret ≠ i) ∧
    (∃ ya, r.store.get r.ret = some ya ∧ ya.shape = [xa.size]) := by
  unfold tv2_1d at hok
  cases hw : decide (0 ≤ w) with
  | false => rw [hw] at hok; exact absurd hok (by simp)
  | true =>
  rw [hw] at hok
  cases hb1 : (method == "ms" || method == "pg" || method == "mspg") with
  | false => rw [hb1] at hok; exact absurd hok (by simp)
  | true =>
  rw [hb1] at hok
  obtain ⟨s2, r2, b, hffm, hext, hr2, hget, hshape, hdata⟩ := ffmRef_spec s xr xa hx
  rw [hffm] at hok
  simp only [pyAssert_true, exBind_ok, getArr_ok hget] at hok
  have hbsize : b.size = xa.size := by unfold NdArray.size; rw [hshape]
  have hext2 : Extends s (s2.alloc (NdArray.zeros1 3)).1 :=
    hext.trans (Extends.alloc_fst _ _)
  have hirI : ∀ i,
      (some (s2.alloc (NdArray.zeros1 3)).2 : Option Ref) = some i →
      s.size ≤ i ∧ ((s2.alloc (NdArray.zeros1 3)).1.alloc (NdArray.zeros1 b.size)).2 ≠ i := by
    intro i hi
    rw [← Option.some.inj hi]
    constructor
    · rw [Store.alloc_ref]
      exact hext.size_le
    · rw [Store.alloc_ref, Store.alloc_ref, Store.size_alloc]
      exact Ne.symm (Nat.ne_of_lt (Nat.lt_succ_self _))
  by_cases hm1 : (method == "ms") = true
  · rw [if_pos hm1] at hok
    simp only [exPure, Except.ok.injEq] at hok
    subst hok
    obtain ⟨g1, g2, g3, g4⟩ := finish_spec ora s (s2.alloc (NdArray.zeros1 3)).1 _ _
      (NdArray.zeros1 b.size) (some (s2.alloc (NdArray.zeros1 3)).2) hext2
      (Extends.self _) hirI
    refine And.intro g1 (And.intro g2 (And.intro g3 ?_))
    obtain ⟨d, hd⟩ := g4
    exact Exists.intro _ (And.intro hd (zeros1_write_shape b xa.size d hbsize))
  · rw [if_neg hm1] at hok
    by_cases hm2 : (method == "pg") = true
    · rw [if_pos hm2] at hok
      simp only [exPure, Except.ok.injEq] at hok
      subst hok
      obtain ⟨g1, g2, g3, g4⟩ := finish_spec ora s (s2.alloc (NdArray.zeros1 3)).1 _ _
        (NdArray.zeros1 b.size) (some (s2.alloc (NdArray.zeros1 3)).2) hext2
        (Extends.self _) hirI
      refine And.intro g1 (And.intro g2 (And.intro g3 ?_))
      obtain ⟨d, hd⟩ := g4
      exact Exists.intro _ (And.intro hd (zeros1_write_shape b xa.size d hbsize))
    · rw [if_neg hm2] at hok
      by_cases hm3 : (method == "mspg") = true
      · rw [if_pos hm3] at hok
        simp only [exPure, Except.ok.injEq] at hok
        subst hok
        have hirI2 : ∀ i,
            (some (((s2.alloc (NdArray.zeros1 3)).1.alloc
                (NdArray.zeros1 b.size)).1.alloc (NdArray.zeros1 3)).2 : Option Ref)
              = some i →
            s.size ≤ i ∧
              ((s2.alloc (NdArray.zeros1 3)).1.alloc (NdArray.zeros1 b.size)).2 ≠ i := by
          intro i hi
          rw [← Option.some.inj hi]
          constructor
          · rw [Store.alloc_ref, Store.size_alloc, Store.size_alloc]
            exact le_trans hext.size_le (le_trans (Nat.le_succ _) (Nat.le_succ _))
          · rw [Store.alloc_ref, Store.alloc_ref, Store.size_alloc, Store.size_alloc,
              Store.size_alloc]
            exact Nat.ne_of_lt (Nat.lt_succ_self _)
        obtain ⟨g1, g2, g3, g4⟩ := finish_spec ora s (s2.alloc (NdArray.zeros1 3)).1 _ _
          (NdArray.zeros1 b.size)
          (some (((s2.alloc (NdArray.zeros1 3)).1.alloc
            (NdArray.zeros1 b.size)).1.alloc (NdArray.zeros1 3)).2) hext2
          (Extends.alloc_fst _ _) hirI2
        refine And.intro g1 (And.intro g2 (And.intro g3 ?_))
        obtain ⟨d, hd⟩ := g4
        exact Exists.intro _ (And.intro hd (zeros1_write_shape b xa.size d hbsize))
      · rw [if_neg hm3] at hok
        simp only [exPure, Except.ok.injEq] at hok
        subst hok
        refine And.intro ?_ (And.intro ?_ (And.intro ?_ ?_))
        · intro t ht
          have hex : Extends s ((s2.alloc (NdArray.zeros1 3)).1.alloc
              (NdArray.zeros1 b.size)).1 :=
            hext2.trans (Extends.alloc_fst _ _)
          exact hex.get_lt t ht
        · show s.size ≤ ((s2.alloc (NdArray.zeros1 3)).1.alloc (NdArray.zeros1 b.size)).2
          rw [Store.alloc_ref, Store.size_alloc]
          exact le_trans hext.size_le (Nat.le_succ _)
        · intro i hi
          rw [← Option.some.inj hi]
          show ((s2.alloc (NdArray.zeros1 3)).1.alloc (NdArray.zeros1 b.size)).2
              ≠ (s2.alloc (NdArray.zeros1 3)).2
          rw [Store.alloc_ref, Store.alloc_ref, Store.size_alloc]
          exact Nat.ne_of_lt (Nat.lt_succ_self _) |>.symm
        · refine Exists.intro (NdArray.zeros1 b.size) (And.intro ?_ ?_)
          · show ((s2.alloc (NdArray.zeros1 3)).1.alloc (NdArray.zeros1 b.size)).1.get
                ((s2.alloc (NdArray.zeros1 3)).1.alloc (NdArray.zeros1 b.size)).2
              = some (NdArray.zeros1 b.size)
            rw [Store.alloc_ref]
            exact Store.get_alloc_self _ _
          · unfold NdArray.zeros1
            rw [hbsize]

/-- On any successful `tvp_1d` call the same frame facts hold. -/
theorem tvp_1d_ok_spec (ora : Oracle) (s : Store) (xr : Ref) (w p : ℚ) (method : String)
    (max_iters : Int) (xa : NdArray) (r : CallResult)
    (hx : s.get xr = some xa)
    (hok : tvp_1d ora s xr w p method max_iters = Except.ok r) :
    (∀ t, t < s.size → r.store.get t = s.get t) ∧
    s.size ≤ r.ret ∧
    (∀ i, r.infoRef = some i → r.ret ≠ i) ∧
    (∃ ya, r.store.get r.ret = some ya ∧ ya.shape = [xa.size]) := by
  unfold tvp_1d at hok
  cases hb1 : (method == "gp" || method == "fw" || method == "gpfw") with
  | false => rw [hb1] at hok; exact absurd hok (by simp)
  | true =>
  rw [hb1] at hok
  cases hw : decide (0 ≤ w) with
  | false => rw [hw] at hok; exact absurd hok (by simp)
  | true =>
  rw [hw] at hok
  cases hp : decide (1 ≤ p) with
  | false => rw [hp] at hok; exact absurd hok (by simp)
  | true =>
  rw [hp] at hok
  obtain ⟨s2, r2, b, hffm, hext, hr2, hget, hshape, hdata⟩ := ffmRef_spec s xr xa hx
  rw [hffm] at hok
  simp only [pyAssert_true, exBind_ok, getArr_ok hget, exPure, Except.ok.injEq] at hok
  subst hok
  have hbsize : b.size = xa.size := by unfold NdArray.size; rw [hshape]
  have hext2 : Extends s (s2.alloc (NdArray.zeros1 3)).1 :=
    hext.trans (Extends.alloc_fst _ _)
  have hirI : ∀ i,
      (some (s2.alloc (NdArray.zeros1 3)).2 : Option Ref) = some i →
      s.size ≤ i ∧ ((s2.alloc (NdArray.zeros1 3)).1.alloc (NdArray.zeros1 b.size)).2 ≠ i := by
    intro i hi
    rw [← Option.some.inj hi]
    constructor
    · rw [Store.alloc_ref]
      exact hext.size_le
    · rw [Store.alloc_ref, Store.alloc_ref, Store.size_alloc]
      exact Ne.symm (Nat.ne_of_lt (Nat.lt_succ_self _))
  obtain ⟨g1, g2, g3, g4⟩ := finish_spec ora s (s2.alloc (NdArray.zeros1 3)).1 _ _
    (NdArray.zeros1 b.size) (some (s2.alloc (NdArray.zeros1 3)).2) hext2
    (Extends.self _) hirI
  refine And.intro g1 (And.intro g2 (And.intro g3 ?_))
  obtain ⟨d, hd⟩ := g4
  exact Exists.intro _ (And.intro hd (zeros1_write_shape b xa.size d hbsize))

theorem zerosShape_write_shape (sh : List Nat) (d : List ℚ) :
    ((NdArray.zerosShape sh).writeData d).shape = sh := rfl

/-- On any successful `tv1_2d` call: caller objects unchanged, fresh
returned buffer of the input's shape, distinct from the diagnostics
buffer. -/
theorem tv1_2d_ok_spec (ora : Oracle) (s : Store) (xr : Ref) (w : ℚ)
    (n_threads max_iters : Int) (method : String) (xa : NdArray) (r : CallResult)
    (hx : s.get xr = some xa)
    (hok : tv1_2d ora s xr w n_threads max_iters method = Except.ok r) :
    (∀ t, t < s.size → r.store.get t = s.get t) ∧
    s.size ≤ r.ret ∧
    (∀ i, r.infoRef = some i → r.ret ≠ i) ∧
    (∃ ya, r.store.get r.ret = some ya ∧ ya.shape = xa.shape) := by
  unfold tv1_2d at hok
  cases hw : decide (0 ≤ w) with
  | false => rw [hw] at hok; exact absurd hok (by simp)
  | true =>
  rw [hw] at hok
  cases hb1 : (method == "dr" || method == "pd" || method == "yang" || method == "condat" ||
      method == "chambolle-pock") with
  | false => rw [hb1] at hok; exact absurd hok (by simp)
  | true =>
  rw [hb1] at hok
  obtain ⟨s2, r2, b, hffm, hext, hr2, hget, hshape, hdata⟩ := asfortranRef_spec s xr xa hx
  rw [hffm] at hok
  simp only [pyAssert_true, exBind_ok, getArr_ok hget] at hok
  have hirPn : ∀ i,
      (some ((s2.alloc (NdArray.zerosShape b.shape)).1.alloc (NdArray.zeros1 3)).2 :
        Option Ref) = some i →
      s.size ≤ i ∧ (s2.alloc (NdArray.zerosShape b.shape)).2 ≠ i := by
    intro i hi
    rw [← Option.some.inj hi]
    constructor
    · rw [Store.alloc_ref, Store.size_alloc]
      exact le_trans hext.size_le (Nat.le_succ_of_le (le_refl _))
    · rw [Store.alloc_ref, Store.alloc_ref, Store.size_alloc]
      exact Nat.ne_of_lt (Nat.lt_succ_self _)
  have main : ∀ c : SolverCall,
      r = finishRun ora ((s2.alloc (NdArray.zerosShape b.shape)).1.alloc
          (NdArray.zeros1 3)).1 c (s2.alloc (NdArray.zerosShape b.shape)).2
          (some ((s2.alloc (NdArray.zerosShape b.shape)).1.alloc (NdArray.zeros1 3)).2) →
      (∀ t, t < s.size → r.store.get t = s.get t) ∧
      s.size ≤ r.ret ∧
      (∀ i, r.infoRef = some i → r.ret ≠ i) ∧
      (∃ ya, r.store.get r.ret = some ya ∧ ya.shape = xa.shape) := by
    intro c hr
    subst hr
    obtain ⟨g1, g2, g3, g4⟩ := finish_spec ora s s2 _ c (NdArray.zerosShape b.shape)
      (some ((s2.alloc (NdArray.zerosShape b.shape)).1.alloc (NdArray.zeros1 3)).2) hext
      (Extends.alloc_fst _ _) hirPn
    refine And.intro g1 (And.intro g2 (And.intro g3 ?_))
    obtain ⟨d, hd⟩ := g4
    refine Exists.intro _ (And.intro hd ?_)
    rw [zerosShape_write_shape, hshape]
  by_cases hm1 : (method == "yang") = true
  · rw [if_pos hm1] at hok
    cases hm0 : shapeAt b 0 with
    | error e => rw [hm0] at hok; exact absurd hok (by simp)
    | ok m0 =>
    rw [hm0] at hok
    cases hm1s : shapeAt b 1 with
    | error e => rw [hm1s] at hok; exact absurd hok (by simp)
    | ok m1 =>
    rw [hm1s] at hok
    simp only [exBind_ok, exPure, Except.ok.injEq] at hok
    exact main _ hok.symm
  · rw [if_neg hm1] at hok
    by_cases hm2 : (method == "dr") = true
    · rw [if_pos hm2] at hok
      cases hm0 : shapeAt b 0 with
      | error e => rw [hm0] at hok; exact absurd hok (by simp)
      | ok m0 =>
      rw [hm0] at hok
      cases hm1s : shapeAt b 1 with
      | error e => rw [hm1s] at hok; exact absurd hok (by simp)
      | ok m1 =>
      rw [hm1s] at hok
      simp only [exBind_ok, exPure, Except.ok.injEq] at hok
      exact main _ hok.symm
    · rw [if_neg hm2] at hok
      by_cases hm3 : (method == "pd") = true
      · rw [if_pos hm3] at hok
        simp only [exPure, Except.ok.injEq] at hok
        exact main _ hok.symm
      · rw [if_neg hm3] at hok
        cases hm0 : shapeAt b 0 with
        | error e => rw [hm0] at hok; exact absurd hok (by simp)
        | ok m0 =>
        rw [hm0] at hok
        cases hm1s : shapeAt b 1 with
        | error e => rw [hm1s] at hok; exact absurd hok (by simp)
        | ok m1 =>
        rw [hm1s] at hok
        simp only [exBind_ok, exPure, Except.ok.injEq] at hok
        exact main _ hok.symm

/-- On any successful `tv1w_2d` call (on a 2-D input) caller objects —
the signal and both weight matrices — are unchanged; the returned buffer
is fresh, has the input's shape, and differs from the diagnostics
buffer. -/
theorem tv1w_2d_ok_spec (ora : Oracle) (s : Store) (xr wcr wrr : Ref)
    (max_iters n_threads : Int) (xa wca wra : NdArray) (M N : Nat) (r : CallResult)
    (hx : s.get xr = some xa) (hwc : s.get wcr = some wca) (hwr : s.get wrr = some wra)
    (hsh : xa.shape = [M, N])
    (hok : tv1w_2d ora s xr wcr wrr max_iters n_threads = Except.ok r) :
    (∀ t, t < s.size → r.store.get t = s.get t) ∧
    s.size ≤ r.ret ∧
    (∀ i, r.infoRef = some i → r.ret ≠ i) ∧
    (∃ ya, r.store.get r.ret = some ya ∧ ya.shape = xa.shape) := by
  unfold tv1w_2d at hok
  rw [getArr_ok hwc] at hok
  simp only [exBind_ok] at hok
  cases hb1 : wca.data.all (fun q => decide (0 ≤ q)) with
  | false => rw [hb1] at hok; exact absurd hok (by simp)
  | true =>
  rw [hb1] at hok
  rw [getArr_ok hwr] at hok
  simp only [pyAssert_true, exBind_ok] at hok
  cases hb2 : wra.data.all (fun q => decide (0 ≤ q)) with
  | false => rw [hb2] at hok; exact absurd hok (by simp)
  | true =>
  rw [hb2] at hok
  rw [getArr_ok hx] at hok
  simp only [pyAssert_true, exBind_ok, hsh] at hok
  cases hb3 : decide (wca.shape.map (fun k => (k : Int)) = [(M : Int) - 1, (N : Int)]) with
  | false => rw [hb3] at hok; exact absurd hok (by simp)
  | true =>
  rw [hb3] at hok
  cases hb4 : decide (wra.shape.map (fun k => (k : Int)) = [(M : Int), (N : Int) - 1]) with
  | false => rw [hb4] at hok; exact absurd hok (by simp)
  | true =>
  rw [hb4] at hok
  obtain ⟨sX, rX, bx, hffmX, hextX, hrX, hgetX, hshX, hdaX⟩ := asfortranRef_spec s xr xa hx
  rw [hffmX] at hok
  simp only [pyAssert_true, exBind_ok, getArr_ok hgetX] at hok
  have hextY : Extends s (sX.alloc (NdArray.zerosShape bx.shape)).1 :=
    hextX.trans (Extends.alloc_fst _ _)
  have hwc1 : (sX.alloc (NdArray.zerosShape bx.shape)).1.get wcr = some wca := by
    rw [hextY.get_lt wcr (Store.lt_size_of_get hwc)]
    exact hwc
  obtain ⟨sWC, rWC, bwc, hffmWC, hextWC, hrWC, hgetWC, hshWC, hdaWC⟩ :=
    asfortranRef_spec _ wcr wca hwc1
  rw [hffmWC] at hok
  simp only [exBind_ok] at hok
  have hwr1 : sWC.get wrr = some wra := by
    rw [(hextY.trans hextWC).get_lt wrr (Store.lt_size_of_get hwr)]
    exact hwr
  obtain ⟨sWR, rWR, bwr, hffmWR, hextWR, hrWR, hgetWR, hshWR, hdaWR⟩ :=
    asfortranRef_spec _ wrr wra hwr1
  rw [hffmWR] at hok
  simp only [exBind_ok, exPure, Except.ok.injEq] at hok
  subst hok
  have hsizeY : (sX.alloc (NdArray.zerosShape bx.shape)).1.size = sX.size + 1 :=
    Store.size_alloc _ _
  have hirW : ∀ i, (some (sWR.alloc (NdArray.zeros1 3)).2 : Option Ref) = some i →
      s.size ≤ i ∧ (sX.alloc (NdArray.zerosShape bx.shape)).2 ≠ i := by
    intro i hi
    rw [← Option.some.inj hi]
    have hle : (sX.alloc (NdArray.zerosShape bx.shape)).1.size ≤ sWR.size :=
      le_trans hextWC.size_le hextWR.size_le
    have hle2 : sX.size + 1 ≤ sWR.size := by
      rw [← hsizeY]
      exact hle
    constructor
    · rw [Store.alloc_ref]
      exact le_trans hextX.size_le (le_trans (Nat.le_succ _) hle2)
    · rw [Store.alloc_ref, Store.alloc_ref]
      exact Nat.ne_of_lt (lt_of_lt_of_le (Nat.lt_succ_self sX.size) hle2)
  obtain ⟨g1, g2, g3, g4⟩ := finish_spec ora s sX _ _ (NdArray.zerosShape bx.shape)
    (some (sWR.alloc (NdArray.zeros1 3)).2) hextX
    ((hextWC.trans hextWR).trans (Extends.alloc_fst _ _)) hirW
  refine And.intro g1 (And.intro g2 (And.intro g3 ?_))
  obtain ⟨d, hd⟩ := g4
  refine Exists.intro _ (And.intro hd ?_)
  rw [zerosShape_write_shape, hshX]

/-- On any successful `tvp_2d` call the same frame facts hold. -/
theorem tvp_2d_ok_spec (ora : Oracle) (s : Store) (xr : Ref) (w_col w_row p_col p_row : ℚ)
    (n_threads max_iters : Int) (xa : NdArray) (r : CallResult)
    (hx : s.get xr = some xa)
    (hok : tvp_2d ora s xr w_col w_row p_col p_row n_threads max_iters = Except.ok r) :
    (∀ t, t < s.size → r.store.get t = s.get t) ∧
    s.size ≤ r.ret ∧
    (∀ i, r.infoRef = some i → r.ret ≠ i) ∧
    (∃ ya, r.store.get r.ret = some ya ∧ ya.shape = xa.shape) := by
  unfold tvp_2d at hok
  cases h1 : decide (0 ≤ w_col) with
  | false => rw [h1] at hok; exact absurd hok (by simp)
  | true =>
  rw [h1] at hok
  cases h2 : decide (0 ≤ w_row) with
  | false => rw [h2] at hok; exact absurd hok (by simp)
  | true =>
  rw [h2] at hok
  cases h3 : decide (1 ≤ p_col) with
  | false => rw [h3] at hok; exact absurd hok (by simp)
  | true =>
  rw [h3] at hok
  cases h4 : decide (1 ≤ p_row) with
  | false => rw [h4] at hok; exact absurd hok (by simp)
  | true =>
  rw [h4] at hok
  simp only [pyAssert_true, exBind_ok] at hok
  have hx1 : (s.alloc (NdArray.zeros1 3)).1.get xr = some xa := by
    rw [Store.get_alloc_lt s _ xr (Store.lt_size_of_get hx)]
    exact hx
  obtain ⟨sX, rX, bx, hffmX, hextX, hrX, hgetX, hshX, hdaX⟩ :=
    asfortranRef_spec _ xr xa hx1
  rw [hffmX] at hok
  simp only [exBind_ok, getArr_ok hgetX] at hok
  cases hm0 : shapeAt bx 0 with
  | error e => rw [hm0] at hok; exact absurd hok (by simp)
  | ok m0 =>
  rw [hm0] at hok
  cases hm1 : shapeAt bx 1 with
  | error e => rw [hm1] at hok; exact absurd hok (by simp)
  | ok m1 =>
  rw [hm1] at hok
  simp only [exBind_ok, exPure, Except.ok.injEq] at hok
  subst hok
  have hext0 : Extends s sX := (Extends.alloc_fst s _).trans hextX
  have hlt : s.size < sX.size :=
    lt_of_lt_of_le (by rw [Store.size_alloc]; exact Nat.lt_succ_self _) hextX.size_le
  have hirI : ∀ i, (some (s.alloc (NdArray.zeros1 3)).2 : Option Ref) = some i →
      s.size ≤ i ∧ (sX.alloc (NdArray.zerosShape bx.shape)).2 ≠ i := by
    intro i hi
    rw [← Option.some.inj hi]
    constructor
    · rw [Store.alloc_ref]
    · rw [Store.alloc_ref, Store.alloc_ref]
      exact Nat.ne_of_gt hlt
  obtain ⟨g1, g2, g3, g4⟩ := finish_spec ora s sX _ _ (NdArray.zerosShape bx.shape)
    (some (s.alloc (NdArray.zeros1 3)).2) hext0 (Extends.self _) hirI
  refine And.intro g1 (And.intro g2 (And.intro g3 ?_))
  obtain ⟨d, hd⟩ := g4
  refine Exists.intro _ (And.intro hd ?_)
  rw [zerosShape_write_shape, hshX]

/-- On any successful `tvgen` call the same frame facts hold: the signal
(and every other caller-held array) is unchanged, and the returned object
is a fresh buffer of the input's shape distinct from the diagnostics
buffer. -/
theorem tvgen_ok_spec (ora : Oracle) (s : Store) (xr : Ref) (ws ds ps : PyObj)
    (n_threads max_iters : Int) (xa : NdArray) (r : CallResult)
    (hx : s.get xr = some xa)
    (hok : tvgen ora s xr ws ds ps n_threads max_iters = Except.ok r) :
    (∀ t, t < s.size → r.store.get t = s.get t) ∧
    s.size ≤ r.ret ∧
    (∀ i, r.infoRef = some i → r.ret ≠ i) ∧
    (∃ ya, r.store.get r.ret = some ya ∧ ya.shape = xa.shape) := by
  unfold tvgen at hok
  cases hlw : pyLen ws with
  | error e => rw [hlw] at hok; exact absurd hok (by simp)
  | ok lw =>
  rw [hlw] at hok
  cases hld : pyLen ds with
  | error e => rw [hld] at hok; exact absurd hok (by simp)
  | ok ld =>
  rw [hld] at hok
  cases hlp : pyLen ps with
  | error e => rw [hlp] at hok; exact absurd hok (by simp)
  | ok lp =>
  rw [hlp] at hok
  simp only [exBind_ok] at hok
  cases ha1 : decide (lw = ld) with
  | false => rw [ha1] at hok; exact absurd hok (by simp)
  | true =>
  rw [ha1] at hok
  cases ha2 : decide (lw = lp) with
  | false => rw [ha2] at hok; exact absurd hok (by simp)
  | true =>
  rw [ha2] at hok
  cases ha3 : decide (1 ≤ n_threads) with
  | false => rw [ha3] at hok; exact absurd hok (by simp)
  | true =>
  rw [ha3] at hok
  cases ha4 : decide (0 ≤ max_iters) with
  | false => rw [ha4] at hok; exact absurd hok (by simp)
  | true =>
  rw [ha4] at hok
  simp only [pyAssert_true, exBind_ok] at hok
  have hx1 : (s.alloc (NdArray.zeros1 3)).1.get xr = some xa := by
    rw [Store.get_alloc_lt s _ xr (Store.lt_size_of_get hx)]
    exact hx
  obtain ⟨sX, rX, bx, hffmX, hextX, hrX, hgetX, hshX, hdaX⟩ :=
    asfortranRef_spec _ xr xa hx1
  rw [hffmX] at hok
  simp only [exBind_ok] at hok
  cases hws : force_float_matrix ws with
  | error e => rw [hws] at hok; exact absurd hok (by simp)
  | ok wsA =>
  rw [hws] at hok
  cases hps : force_float_matrix ps with
  | error e => rw [hps] at hok; exact absurd hok (by simp)
  | ok psA =>
  rw [hps] at hok
  simp only [exBind_ok, getArr_ok hgetX] at hok
  cases hcond : tvgenCond ds with
  | error e => rw [hcond] at hok; exact absurd hok (by simp)
  | ok cond =>
  rw [hcond] at hok
  simp only [exBind_ok] at hok
  have hext0 : Extends s sX := (Extends.alloc_fst s _).trans hextX
  have hlt : s.size < sX.size :=
    lt_of_lt_of_le (by rw [Store.size_alloc]; exact Nat.lt_succ_self _) hextX.size_le
  have hirI : ∀ i, (some (s.alloc (NdArray.zeros1 3)).2 : Option Ref) = some i →
      s.size ≤ i ∧ (sX.alloc (NdArray.zerosShape bx.shape)).2 ≠ i := by
    intro i hi
    rw [← Option.some.inj hi]
    constructor
    · rw [Store.alloc_ref]
    · rw [Store.alloc_ref, Store.alloc_ref]
      exact Nat.ne_of_gt hlt
  have main : ∀ c : SolverCall,
      r = finishRun ora (sX.alloc (NdArray.zerosShape bx.shape)).1 c
          (sX.alloc (NdArray.zerosShape bx.shape)).2
          (some (s.alloc (NdArray.zeros1 3)).2) →
      (∀ t, t < s.size → r.store.get t = s.get t) ∧
      s.size ≤ r.ret ∧
      (∀ i, r.infoRef = some i → r.ret ≠ i) ∧
      (∃ ya, r.store.get r.ret = some ya ∧ ya.shape = xa.shape) := by
    intro c hr
    subst hr
    obtain ⟨g1, g2, g3, g4⟩ := finish_spec ora s sX _ c (NdArray.zerosShape bx.shape)
      (some (s.alloc (NdArray.zeros1 3)).2) hext0 (Extends.self _) hirI
    refine And.intro g1 (And.intro g2 (And.intro g3 ?_))
    obtain ⟨d, hd⟩ := g4
    refine Exists.intro _ (And.intro hd ?_)
    rw [zerosShape_write_shape, hshX]
  cases cond with
  | true =>
      rw [if_pos rfl] at hok
      cases hm0 : shapeAt bx 0 with
      | error e => rw [hm0] at hok; exact absurd hok (by simp)
      | ok m0 =>
      rw [hm0] at hok
      cases hm1 : shapeAt bx 1 with
      | error e => rw [hm1] at hok; exact absurd hok (by simp)
      | ok m1 =>
      rw [hm1] at hok
      cases hw0 : dataAt wsA 0 with
      | error e => rw [hw0] at hok; exact absurd hok (by simp)
      | ok w0 =>
      rw [hw0] at hok
      cases hw1 : dataAt wsA 1 with
      | error e => rw [hw1] at hok; exact absurd hok (by simp)
      | ok w1 =>
      rw [hw1] at hok
      cases hp0 : dataAt psA 0 with
      | error e => rw [hp0] at hok; exact absurd hok (by simp)
      | ok p0 =>
      rw [hp0] at hok
      cases hp1 : dataAt psA 1 with
      | error e => rw [hp1] at hok; exact absurd hok (by simp)
      | ok p1 =>
      rw [hp1] at hok
      simp only [exBind_ok, exPure, Except.ok.injEq] at hok
      exact main _ hok.symm
  | false =>
      rw [if_neg (by simp)] at hok
      by_cases hlw2 : (lw == 2) = true
      · rw [if_pos hlw2] at hok
        simp only [exPure, Except.ok.injEq] at hok
        exact main _ hok.symm
      · rw [if_neg hlw2] at hok
        simp only [exPure, Except.ok.injEq] at hok
        exact main _ hok.symm

/-! ### Validation behaviour of the wrappers -/

theorem tv1_1d_rejects_neg (ora : Oracle) (s : Store) (xr : Ref) (w sigma : ℚ)
    (method : String) (h : w < 0) :
    tv1_1d ora s xr w sigma method = Except.error PyErr.assertionError := by
  have hw : decide (0 ≤ w) = false := decide_eq_false (not_le.mpr h)
  unfold tv1_1d
  cases hb1 : (method == "tautstring" || method == "pn" || method == "condat" ||
      method == "dp") with
  | false => rfl
  | true => rw [hw]; rfl

theorem tv1w_1d_rejects_neg (ora : Oracle) (s : Store) (xr wr : Ref) (method : String)
    (sigma : ℚ) (wa : NdArray) (q : ℚ)
    (hw : s.get wr = some wa) (hq : q ∈ wa.data) (hneg : q < 0) :
    tv1w_1d ora s xr wr method sigma = Except.error PyErr.assertionError := by
  have hfalse : wa.data.all (fun q => decide (0 ≤ q)) = false := by
    rw [List.all_eq_false]
    exact Exists.intro q (And.intro hq (by simpa using not_le.mpr hneg))
  unfold tv1w_1d
  rw [getArr_ok hw]
  simp only [exBind_ok, hfalse]
  rfl

theorem tv2_1d_rejects_neg (ora : Oracle) (s : Store) (xr : Ref) (w : ℚ)
    (method : String) (h : w < 0) :
    tv2_1d ora s xr w method = Except.error PyErr.assertionError := by
  have hw : decide (0 ≤ w) = false := decide_eq_false (not_le.mpr h)
  unfold tv2_1d
  rw [hw]
  rfl

theorem tvp_1d_rejects (ora : Oracle) (s : Store) (xr : Ref) (w p : ℚ) (method : String)
    (max_iters : Int) (h : w < 0 ∨ p < 1) :
    tvp_1d ora s xr w p method max_iters = Except.error PyErr.assertionError := by
  unfold tvp_1d
  cases hb1 : (method == "gp" || method == "fw" || method == "gpfw") with
  | false => rfl
  | true =>
  rcases h with hw | hp
  · rw [decide_eq_false (not_le.mpr hw)]
    rfl
  · cases hb2 : decide (0 ≤ w) with
    | false => rfl
    | true => rw [decide_eq_false (not_le.mpr hp)]; rfl

theorem tv1_2d_rejects_neg (ora : Oracle) (s : Store) (xr : Ref) (w : ℚ)
    (n_threads max_iters : Int) (method : String) (h : w < 0) :
    tv1_2d ora s xr w n_threads max_iters method = Except.error PyErr.assertionError := by
  have hw : decide (0 ≤ w) = false := decide_eq_false (not_le.mpr h)
  unfold tv1_2d
  rw [hw]
  rfl

theorem tv1w_2d_rejects_neg (ora : Oracle) (s : Store) (xr wcr wrr : Ref)
    (max_iters n_threads : Int) (wca wra : NdArray) (q : ℚ)
    (hwc : s.get wcr = some wca) (hwr : s.get wrr = some wra)
    (h : (q ∈ wca.data ∨ q ∈ wra.data) ∧ q < 0) :
    tv1w_2d ora s xr wcr wrr max_iters n_threads = Except.error PyErr.assertionError := by
  unfold tv1w_2d
  rw [getArr_ok hwc]
  simp only [exBind_ok]
  cases hb1 : wca.data.all (fun q => decide (0 ≤ q)) with
  | false => rfl
  | true =>
  rcases h with ⟨hmem | hmem, hneg⟩
  · exfalso
    have := List.all_eq_true.mp hb1 q hmem
    simp at this
    exact absurd this (not_le.mpr hneg)
  · have hfalse : wra.data.all (fun q => decide (0 ≤ q)) = false := by
      rw [List.all_eq_false]
      exact Exists.intro q (And.intro hmem (by simpa using not_le.mpr hneg))
    rw [getArr_ok hwr]
    simp only [pyAssert_true, exBind_ok, hfalse]
    rfl

theorem tvp_2d_rejects (ora : Oracle) (s : Store) (xr : Ref) (w_col w_row p_col p_row : ℚ)
    (n_threads max_iters : Int)
    (h : w_col < 0 ∨ w_row < 0 ∨ p_col < 1 ∨ p_row < 1) :
    tvp_2d ora s xr w_col w_row p_col p_row n_threads max_iters
      = Except.error PyErr.assertionError := by
  unfold tvp_2d
  cases h1 : decide (0 ≤ w_col) with
  | false => rfl
  | true =>
  cases h2 : decide (0 ≤ w_row) with
  | false => rfl
  | true =>
  cases h3 : decide (1 ≤ p_col) with
  | false => rfl
  | true =>
  cases h4 : decide (1 ≤ p_row) with
  | false => rfl
  | true =>
  exfalso
  rcases h with hh | hh | hh | hh
  · exact absurd (of_decide_eq_true h1) (not_le.mpr hh)
  · exact absurd (of_decide_eq_true h2) (not_le.mpr hh)
  · exact absurd (of_decide_eq_true h3) (not_le.mpr hh)
  · exact absurd (of_decide_eq_true h4) (not_le.mpr hh)

theorem tv1_1d_rejects_method (ora : Oracle) (s : Store) (xr : Ref) (w sigma : ℚ)
    (method : String)
    (h : method ∉ (["tautstring", "pn", "condat", "dp"] : List String)) :
    tv1_1d ora s xr w sigma method = Except.error PyErr.assertionError := by
  simp only [List.mem_cons, List.mem_singleton, not_or] at h
  obtain ⟨h1, h2, h3, h4⟩ := h
  have hb : (method == "tautstring" || method == "pn" || method == "condat" ||
      method == "dp") = false := by
    simp [h1, h2, h3, h4]
  unfold tv1_1d
  rw [hb]
  rfl

theorem tv2_1d_rejects_method (ora : Oracle) (s : Store) (xr : Ref) (w : ℚ)
    (method : String)
    (h : method ∉ (["ms", "pg", "mspg"] : List String)) :
    tv2_1d ora s xr w method = Except.error PyErr.assertionError := by
  simp only [List.mem_cons, List.mem_singleton, not_or] at h
  obtain ⟨h1, h2, h3⟩ := h
  have hb : (method == "ms" || method == "pg" || method == "mspg") = false := by
    simp [h1, h2, h3]
  unfold tv2_1d
  cases hw : decide (0 ≤ w) with
  | false => rfl
  | true => rw [hb]; rfl

theorem tvp_1d_rejects_method (ora : Oracle) (s : Store) (xr : Ref) (w p : ℚ)
    (method : String) (max_iters : Int)
    (h : method ∉ (["gp", "fw", "gpfw"] : List String)) :
    tvp_1d ora s xr w p method max_iters = Except.error PyErr.assertionError := by
  simp only [List.mem_cons, List.mem_singleton, not_or] at h
  obtain ⟨h1, h2, h3⟩ := h
  have hb : (method == "gp" || method == "fw" || method == "gpfw") = false := by
    simp [h1, h2, h3]
  unfold tvp_1d
  rw [hb]
  rfl

theorem tv1_2d_rejects_method (ora : Oracle) (s : Store) (xr : Ref) (w : ℚ)
    (n_threads max_iters : Int) (method : String)
    (h : method ∉ (["dr", "pd", "yang", "condat", "chambolle-pock"] : List String)) :
    tv1_2d ora s xr w n_threads max_iters method = Except.error PyErr.assertionError := by
  simp only [List.mem_cons, List.mem_singleton, not_or] at h
  obtain ⟨h1, h2, h3, h4, h5⟩ := h
  have hb : (method == "dr" || method == "pd" || method == "yang" || method == "condat" ||
      method == "chambolle-pock") = false := by
    simp [h1, h2, h3, h4, h5]
  unfold tv1_2d
  cases hw : decide (0 ≤ w) with
  | false => rfl
  | true => rw [hb]; rfl

/-- `tv1w_1d` never rejects a method selector: any string other than
`'tautstring'` silently dispatches to the projected-Newton solver. -/
theorem tv1w_1d_dispatches_pn (ora : Oracle) (s : Store) (xr wr : Ref) (method : String)
    (sigma : ℚ) (xa wa : NdArray)
    (hx : s.get xr = some xa) (hw : s.get wr = some wa)
    (hall : ∀ q ∈ wa.data, 0 ≤ q)
    (hsz : (xa.size : Int) - 1 = (wa.size : Int))
    (hm : method ≠ "tautstring") :
    calledFn (tv1w_1d ora s xr wr method sigma) = some LibFn.PN_TV1_Weighted := by
  have hb1 : wa.data.all (fun q => decide (0 ≤ q)) = true := by
    rw [List.all_eq_true]
    intro q hq
    simpa using hall q hq
  have hbm : (method == "tautstring") = false := by
    simp [hm]
  unfold tv1w_1d
  rw [getArr_ok hw]
  simp only [exBind_ok, hb1, pyAssert_true, getArr_ok hx, decide_eq_true hsz]
  obtain ⟨sW, rW, bw, hffmW, hextW, hrW, hgetW, hshW, hdaW⟩ := ffmRef_spec s wr wa hw
  rw [hffmW]
  have hx1 : sW.get xr = some xa := by
    rw [hextW.get_lt xr (Store.lt_size_of_get hx)]
    exact hx
  obtain ⟨sX, rX, bx, hffmX, hextX, hrX, hgetX, hshX, hdaX⟩ := ffmRef_spec sW xr xa hx1
  simp only [pyAssert_true, exBind_ok, hffmX, getArr_ok hgetX, hbm]
  rfl

/-! ### Iteration-cap pass-through -/

theorem tv1_2d_cap (ora : Oracle) (s : Store) (xr : Ref) (w : ℚ)
    (n_threads max_iters : Int) (method : String) (r : CallResult)
    (hok : tv1_2d ora s xr w n_threads max_iters method = Except.ok r) :
    capArg (Except.ok r) = some (Arg.int max_iters) := by
  unfold tv1_2d at hok
  cases hw : decide (0 ≤ w) with
  | false => rw [hw] at hok; exact absurd hok (by simp)
  | true =>
  rw [hw] at hok
  cases hb1 : (method == "dr" || method == "pd" || method == "yang" || method == "condat" ||
      method == "chambolle-pock") with
  | false => rw [hb1] at hok; exact absurd hok (by simp)
  | true =>
  rw [hb1] at hok
  cases hcv : asfortranRef s xr with
  | error e => rw [hcv] at hok; exact absurd hok (by simp)
  | ok pr =>
  rw [hcv] at hok
  simp only [exBind_ok] at hok
  cases hga : getArr pr.1 pr.2 with
  | error e => rw [hga] at hok; exact absurd hok (by simp)
  | ok b =>
  rw [hga] at hok
  simp only [pyAssert_true, exBind_ok] at hok
  by_cases hm1 : (method == "yang") = true
  · rw [if_pos hm1] at hok
    cases hm0 : shapeAt b 0 with
    | error e => rw [hm0] at hok; exact absurd hok (by simp)
    | ok m0 =>
    rw [hm0] at hok
    cases hm1s : shapeAt b 1 with
    | error e => rw [hm1s] at hok; exact absurd hok (by simp)
    | ok m1 =>
    rw [hm1s] at hok
    simp only [exBind_ok, exPure, Except.ok.injEq] at hok
    rw [← hok]
    rfl
  · rw [if_neg hm1] at hok
    by_cases hm2 : (method == "dr") = true
    · rw [if_pos hm2] at hok
      cases hm0 : shapeAt b 0 with
      | error e => rw [hm0] at hok; exact absurd hok (by simp)
      | ok m0 =>
      rw [hm0] at hok
      cases hm1s : shapeAt b 1 with
      | error e => rw [hm1s] at hok; exact absurd hok (by simp)
      | ok m1 =>
      rw [hm1s] at hok
      simp only [exBind_ok, exPure, Except.ok.injEq] at hok
      rw [← hok]
      rfl
    · rw [if_neg hm2] at hok
      by_cases hm3 : (method == "pd") = true
      · rw [if_pos hm3] at hok
        simp only [exPure, Except.ok.injEq] at hok
        rw [← hok]
        rfl
      · rw [if_neg hm3] at hok
        cases hm0 : shapeAt b 0 with
        | error e => rw [hm0] at hok; exact absurd hok (by simp)
        | ok m0 =>
        rw [hm0] at hok
        cases hm1s : shapeAt b 1 with
        | error e => rw [hm1s] at hok; exact absurd hok (by simp)
        | ok m1 =>
        rw [hm1s] at hok
        simp only [exBind_ok, exPure, Except.ok.injEq] at hok
        rw [← hok]
        rfl

theorem tv1w_2d_cap (ora : Oracle) (s : Store) (xr wcr wrr : Ref)
    (max_iters n_threads : Int) (r : CallResult)
    (hok : tv1w_2d ora s xr wcr wrr max_iters n_threads = Except.ok r) :
    capArg (Except.ok r) = some (Arg.int max_iters) := by
  unfold tv1w_2d at hok
  cases hgc : getArr s wcr with
  | error e => rw [hgc] at hok; exact absurd hok (by simp)
  | ok wca =>
  rw [hgc] at hok
  simp only [exBind_ok] at hok
  cases hb1 : wca.data.all (fun q => decide (0 ≤ q)) with
  | false => rw [hb1] at hok; exact absurd hok (by simp)
  | true =>
  rw [hb1] at hok
  cases hgr : getArr s wrr with
  | error e => rw [hgr] at hok; exact absurd hok (by simp)
  | ok wra =>
  rw [hgr] at hok
  simp only [pyAssert_true, exBind_ok] at hok
  cases hb2 : wra.data.all (fun q => decide (0 ≤ q)) with
  | false => rw [hb2] at hok; exact absurd hok (by simp)
  | true =>
  rw [hb2] at hok
  cases hgx : getArr s xr with
  | error e => rw [hgx] at hok; exact absurd hok (by simp)
  | ok xa0 =>
  rw [hgx] at hok
  simp only [pyAssert_true, exBind_ok] at hok
  cases hmn : (match xa0.shape with
    | [m, n] => Except.ok (m, n)
    | _ => Except.error PyErr.valueError : Except PyErr (Nat × Nat)) with
  | error e => rw [hmn] at hok; exact absurd hok (by simp)
  | ok mn =>
  rw [hmn] at hok
  simp only [exBind_ok] at hok
  cases hb3 : decide (wca.shape.map (fun k => (k : Int)) = [(mn.1 : Int) - 1, (mn.2 : Int)]) with
  | false => rw [hb3] at hok; exact absurd hok (by simp)
  | true =>
  rw [hb3] at hok
  cases hb4 : decide (wra.shape.map (fun k => (k : Int)) = [(mn.1 : Int), (mn.2 : Int) - 1]) with
  | false => rw [hb4] at hok; exact absurd hok (by simp)
  | true =>
  rw [hb4] at hok
  cases hcv : asfortranRef s xr with
  | error e => rw [hcv] at hok; exact absurd hok (by simp)
  | ok prx =>
  rw [hcv] at hok
  simp only [exBind_ok] at hok
  cases hga : getArr prx.1 prx.2 with
  | error e => rw [hga] at hok; exact absurd hok (by simp)
  | ok bx =>
  rw [hga] at hok
  simp only [exBind_ok] at hok
  cases hcwc : asfortranRef (prx.1.alloc (NdArray.zerosShape bx.shape)).1 wcr with
  | error e => rw [hcwc] at hok; exact absurd hok (by simp)
  | ok prwc =>
  rw [hcwc] at hok
  simp only [exBind_ok] at hok
  cases hcwr : asfortranRef prwc.1 wrr with
  | error e => rw [hcwr] at hok; exact absurd hok (by simp)
  | ok prwr =>
  rw [hcwr] at hok
  simp only [exBind_ok, exPure, Except.ok.injEq] at hok
  rw [← hok]
  rfl

theorem tvp_2d_cap (ora : Oracle) (s : Store) (xr : Ref) (w_col w_row p_col p_row : ℚ)
    (n_threads max_iters : Int) (r : CallResult)
    (hok : tvp_2d ora s xr w_col w_row p_col p_row n_threads max_iters = Except.ok r) :
    capArg (Except.ok r) = some (Arg.int max_iters) := by
  unfold tvp_2d at hok
  cases h1 : decide (0 ≤ w_col) with
  | false => rw [h1] at hok; exact absurd hok (by simp)
  | true =>
  rw [h1] at hok
  cases h2 : decide (0 ≤ w_row) with
  | false => rw [h2] at hok; exact absurd hok (by simp)
  | true =>
  rw [h2] at hok
  cases h3 : decide (1 ≤ p_col) with
  | false => rw [h3] at hok; exact absurd hok (by simp)
  | true =>
  rw [h3] at hok
  cases h4 : decide (1 ≤ p_row) with
  | false => rw [h4] at hok; exact absurd hok (by simp)
  | true =>
  rw [h4] at hok
  simp only [pyAssert_true, exBind_ok] at hok
  cases hcv : asfortranRef (s.alloc (NdArray.zeros1 3)).1 xr with
  | error e => rw [hcv] at hok; exact absurd hok (by simp)
  | ok prx =>
  rw [hcv] at hok
  simp only [exBind_ok] at hok
  cases hga : getArr prx.1 prx.2 with
  | error e => rw [hga] at hok; exact absurd hok (by simp)
  | ok bx =>
  rw [hga] at hok
  simp only [exBind_ok] at hok
  cases hm0 : shapeAt bx 0 with
  | error e => rw [hm0] at hok; exact absurd hok (by simp)
  | ok m0 =>
  rw [hm0] at hok
  cases hm1 : shapeAt bx 1 with
  | error e => rw [hm1] at hok; exact absurd hok (by simp)
  | ok m1 =>
  rw [hm1] at hok
  simp only [exBind_ok, exPure, Except.ok.injEq] at hok
  rw [← hok]
  rfl

theorem tvgen_cap (ora : Oracle) (s : Store) (xr : Ref) (ws ds ps : PyObj)
    (n_threads max_iters : Int) (r : CallResult)
    (hok : tvgen ora s xr ws ds ps n_threads max_iters = Except.ok r) :
    capArg (Except.ok r) = some (Arg.int max_iters) := by
  unfold tvgen at hok
  cases hlw : pyLen ws with
  | error e => rw [hlw] at hok; exact absurd hok (by simp)
  | ok lw =>
  rw [hlw] at hok
  cases hld : pyLen ds with
  | error e => rw [hld] at hok; exact absurd hok (by simp)
  | ok ld =>
  rw [hld] at hok
  cases hlp : pyLen ps with
  | error e => rw [hlp] at hok; exact absurd hok (by simp)
  | ok lp =>
  rw [hlp] at hok
  simp only [exBind_ok] at hok
  cases ha1 : decide (lw = ld) with
  | false => rw [ha1] at hok; exact absurd hok (by simp)
  | true =>
  rw [ha1] at hok
  cases ha2 : decide (lw = lp) with
  | false => rw [ha2] at hok; exact absurd hok (by simp)
  | true =>
  rw [ha2] at hok
  cases ha3 : decide (1 ≤ n_threads) with
  | false => rw [ha3] at hok; exact absurd hok (by simp)
  | true =>
  rw [ha3] at hok
  cases ha4 : decide (0 ≤ max_iters) with
  | false => rw [ha4] at hok; exact absurd hok (by simp)
  | true =>
  rw [ha4] at hok
  simp only [pyAssert_true, exBind_ok] at hok
  cases hcv : asfortranRef (s.alloc (NdArray.zeros1 3)).1 xr with
  | error e => rw [hcv] at hok; exact absurd hok (by simp)
  | ok prx =>
  rw [hcv] at hok
  cases hws : force_float_matrix ws with
  | error e => rw [hws] at hok; exact absurd hok (by simp)
  | ok wsA =>
  rw [hws] at hok
  cases hps : force_float_matrix ps with
  | error e => rw [hps] at hok; exact absurd hok (by simp)
  | ok psA =>
  rw [hps] at hok
  simp only [exBind_ok] at hok
  cases hga : getArr prx.1 prx.2 with
  | error e => rw [hga] at hok; exact absurd hok (by simp)
  | ok bx =>
  rw [hga] at hok
  simp only [exBind_ok] at hok
  cases hcond : tvgenCond ds with
  | error e => rw [hcond] at hok; exact absurd hok (by simp)
  | ok cond =>
  rw [hcond] at hok
  simp only [exBind_ok] at hok
  cases cond with
  | true =>
      rw [if_pos rfl] at hok
      cases hm0 : shapeAt bx 0 with
      | error e => rw [hm0] at hok; exact absurd hok (by simp)
      | ok m0 =>
      rw [hm0] at hok
      cases hm1 : shapeAt bx 1 with
      | error e => rw [hm1] at hok; exact absurd hok (by simp)
      | ok m1 =>
      rw [hm1] at hok
      cases hw0 : dataAt wsA 0 with
      | error e => rw [hw0] at hok; exact absurd hok (by simp)
      | ok w0 =>
      rw [hw0] at hok
      cases hw1 : dataAt wsA 1 with
      | error e => rw [hw1] at hok; exact absurd hok (by simp)
      | ok w1 =>
      rw [hw1] at hok
      cases hp0 : dataAt psA 0 with
      | error e => rw [hp0] at hok; exact absurd hok (by simp)
      | ok p0 =>
      rw [hp0] at hok
      cases hp1 : dataAt psA 1 with
      | error e => rw [hp1] at hok; exact absurd hok (by simp)
      | ok p1 =>
      rw [hp1] at hok
      simp only [exBind_ok, exPure, Except.ok.injEq] at hok
      rw [← hok]
      rfl
  | false =>
      rw [if_neg (by simp)] at hok
      by_cases hlw2 : (lw == 2) = true
      · rw [if_pos hlw2] at hok
        simp only [exPure, Except.ok.injEq] at hok
        rw [← hok]
        rfl
      · rw [if_neg hlw2] at hok
        simp only [exPure, Except.ok.injEq] at hok
        rw [← hok]
        rfl

/-- `tvp_1d` dispatches to one of the lp solvers, none of which has an
iteration-cap parameter: the caller's `max_iters` goes nowhere. -/
theorem tvp_1d_no_cap (ora : Oracle) (s : Store) (xr : Ref) (w p : ℚ) (method : String)
    (max_iters : Int) (r : CallResult)
    (hok : tvp_1d ora s xr w p method max_iters = Except.ok r) :
    Option.bind (calledFn (Except.ok r)) maxItersIndex = none := by
  unfold tvp_1d at hok
  cases hb1 : (method == "gp" || method == "fw" || method == "gpfw") with
  | false => rw [hb1] at hok; exact absurd hok (by simp)
  | true =>
  rw [hb1] at hok
  cases hw : decide (0 ≤ w) with
  | false => rw [hw] at hok; exact absurd hok (by simp)
  | true =>
  rw [hw] at hok
  cases hp : decide (1 ≤ p) with
  | false => rw [hp] at hok; exact absurd hok (by simp)
  | true =>
  rw [hp] at hok
  cases hcv : ffmRef s xr with
  | error e => rw [hcv] at hok; exact absurd hok (by simp)
  | ok prx =>
  rw [hcv] at hok
  simp only [exBind_ok] at hok
  cases hga : getArr prx.1 prx.2 with
  | error e => rw [hga] at hok; exact absurd hok (by simp)
  | ok bx =>
  rw [hga] at hok
  simp only [exBind_ok, exPure, Except.ok.injEq] at hok
  rw [← hok]
  by_cases hg : (method == "gp") = true
  · rw [if_pos hg]
    rfl
  · rw [if_neg hg]
    by_cases hf : (method == "fw") = true
    · rw [if_pos hf]
      rfl
    · rw [if_neg hf]
      rfl

/-- `tv1w_2d` rejects (with `AssertionError`) whenever some weight entry
is negative or one of the weight matrices has the wrong shape. -/
theorem tv1w_2d_rejects_cond (ora : Oracle) (s : Store) (xr wcr wrr : Ref)
    (max_iters n_threads : Int) (xa wca wra : NdArray) (M N : Nat)
    (hx : s.get xr = some xa) (hwc : s.get wcr = some wca) (hwr : s.get wrr = some wra)
    (hsh : xa.shape = [M, N])
    (hviol : ¬ ((∀ q ∈ wca.data, 0 ≤ q) ∧ (∀ q ∈ wra.data, 0 ≤ q) ∧
      wca.shape.map (fun k => (k : Int)) = [(M : Int) - 1, (N : Int)] ∧
      wra.shape.map (fun k => (k : Int)) = [(M : Int), (N : Int) - 1])) :
    tv1w_2d ora s xr wcr wrr max_iters n_threads = Except.error PyErr.assertionError := by
  unfold tv1w_2d
  rw [getArr_ok hwc]
  simp only [exBind_ok]
  cases hb1 : wca.data.all (fun q => decide (0 ≤ q)) with
  | false => rfl
  | true =>
  rw [getArr_ok hwr]
  simp only [pyAssert_true, exBind_ok]
  cases hb2 : wra.data.all (fun q => decide (0 ≤ q)) with
  | false => rfl
  | true =>
  rw [getArr_ok hx]
  simp only [pyAssert_true, exBind_ok, hsh]
  cases hb3 : decide (wca.shape.map (fun k => (k : Int)) = [(M : Int) - 1, (N : Int)]) with
  | false => rfl
  | true =>
  cases hb4 : decide (wra.shape.map (fun k => (k : Int)) = [(M : Int), (N : Int) - 1]) with
  | false => rfl
  | true =>
  exfalso
  apply hviol
  refine And.intro ?_ (And.intro ?_ (And.intro ?_ ?_))
  · intro q hq
    simpa using List.all_eq_true.mp hb1 q hq
  · intro q hq
    simpa using List.all_eq_true.mp hb2 q hq
  · exact of_decide_eq_true hb3
  · exact of_decide_eq_true hb4

/-- When all of `tv1w_2d`'s preconditions hold it proceeds to the
Douglas-Rachford weighted solver `DR2L1W_TV`. -/
theorem tv1w_2d_proceeds (ora : Oracle) (s : Store) (xr wcr wrr : Ref)
    (max_iters n_threads : Int) (xa wca wra : NdArray) (M N : Nat)
    (hx : s.get xr = some xa) (hwc : s.get wcr = some wca) (hwr : s.get wrr = some wra)
    (hsh : xa.shape = [M, N])
    (hall1 : ∀ q ∈ wca.data, 0 ≤ q) (hall2 : ∀ q ∈ wra.data, 0 ≤ q)
    (hshc : wca.shape.map (fun k => (k : Int)) = [(M : Int) - 1, (N : Int)])
    (hshr : wra.shape.map (fun k => (k : Int)) = [(M : Int), (N : Int) - 1]) :
    calledFn (tv1w_2d ora s xr wcr wrr max_iters n_threads) = some LibFn.DR2L1W_TV := by
  have hb1 : wca.data.all (fun q => decide (0 ≤ q)) = true := by
    rw [List.all_eq_true]
    intro q hq
    simpa using hall1 q hq
  have hb2 : wra.data.all (fun q => decide (0 ≤ q)) = true := by
    rw [List.all_eq_true]
    intro q hq
    simpa using hall2 q hq
  unfold tv1w_2d
  rw [getArr_ok hwc]
  simp only [exBind_ok, hb1, pyAssert_true]
  rw [getArr_ok hwr]
  simp only [exBind_ok, hb2, pyAssert_true]
  rw [getArr_ok hx]
  simp only [exBind_ok, hsh, decide_eq_true hshc, decide_eq_true hshr, pyAssert_true]
  obtain ⟨sX, rX, bx, hffmX, hextX, hrX, hgetX, hshX, hdaX⟩ := asfortranRef_spec s xr xa hx
  rw [hffmX]
  simp only [exBind_ok, getArr_ok hgetX]
  have hextY : Extends s (sX.alloc (NdArray.zerosShape bx.shape)).1 :=
    hextX.trans (Extends.alloc_fst _ _)
  have hwc1 : (sX.alloc (NdArray.zerosShape bx.shape)).1.get wcr = some wca := by
    rw [hextY.get_lt wcr (Store.lt_size_of_get hwc)]
    exact hwc
  obtain ⟨sWC, rWC, bwc, hffmWC, hextWC, hrWC, hgetWC, hshWC, hdaWC⟩ :=
    asfortranRef_spec _ wcr wca hwc1
  rw [hffmWC]
  simp only [exBind_ok]
  have hwr1 : sWC.get wrr = some wra := by
    rw [(hextY.trans hextWC).get_lt wrr (Store.lt_size_of_get hwr)]
    exact hwr
  obtain ⟨sWR, rWR, bwr, hffmWR, hextWR, hrWR, hgetWR, hshWR, hdaWR⟩ :=
    asfortranRef_spec _ wrr wra hwr1
  rw [hffmWR]
  rfl

/-- Only an ndarray survives `force_float_matrix` (everything else lacks
the `.dtype` attribute). -/
theorem force_float_matrix_ok_ndarray (x : PyObj) (a : NdArray)
    (h : force_float_matrix x = Except.ok a) : ∃ b, x = PyObj.ndarray b := by
  cases x with
  | ndarray b => exact Exists.intro b rfl
  | int n => exact absurd h (by simp [force_float_matrix])
  | float q => exact absurd h (by simp [force_float_matrix])
  | bool b => exact absurd h (by simp [force_float_matrix])
  | pylist l => exact absurd h (by simp [force_float_matrix])

/-- A `tvgen` call whose `ws` is a plain Python list dies with
`AttributeError` inside `force_float_matrix`, before any dispatch. -/
theorem tvgen_ws_list_fails (ora : Oracle) (s : Store) (xr : Ref) (l : List PyObj)
    (ds ps : PyObj) (n_threads max_iters : Int) (xa : NdArray)
    (hx : s.get xr = some xa)
    (hld : pyLen ds = Except.ok (l.length : Int))
    (hlp : pyLen ps = Except.ok (l.length : Int))
    (hnt : 1 ≤ n_threads) (hmi : 0 ≤ max_iters) :
    tvgen ora s xr (PyObj.pylist l) ds ps n_threads max_iters
      = Except.error PyErr.attributeError := by
  unfold tvgen
  have hlw : pyLen (PyObj.pylist l) = Except.ok (l.length : Int) := rfl
  rw [hlw, hld, hlp]
  simp only [exBind_ok, decide_eq_true (Eq.refl ((l.length : Int))),
    decide_eq_true hnt, decide_eq_true hmi, pyAssert_true]
  have hx1 : (s.alloc (NdArray.zeros1 3)).1.get xr = some xa := by
    rw [Store.get_alloc_lt s _ xr (Store.lt_size_of_get hx)]
    exact hx
  obtain ⟨sX, rX, bx, hffmX, hextX, hrX, hgetX, hshX, hdaX⟩ :=
    asfortranRef_spec _ xr xa hx1
  rw [hffmX]
  rfl

/-- Likewise for a plain-list `ps` (with `ws` an ndarray, so the failure
is at the `ps` conversion). -/
theorem tvgen_ps_list_fails (ora : Oracle) (s : Store) (xr : Ref) (wa : NdArray)
    (l : List PyObj) (ds : PyObj) (n_threads max_iters : Int) (xa : NdArray)
    (hx : s.get xr = some xa)
    (hlw : pyLen (PyObj.ndarray wa) = Except.ok (l.length : Int))
    (hld : pyLen ds = Except.ok (l.length : Int))
    (hnt : 1 ≤ n_threads) (hmi : 0 ≤ max_iters) :
    tvgen ora s xr (PyObj.ndarray wa) ds (PyObj.pylist l) n_threads max_iters
      = Except.error PyErr.attributeError := by
  unfold tvgen
  have hlp : pyLen (PyObj.pylist l) = Except.ok (l.length : Int) := rfl
  rw [hlw, hld, hlp]
  simp only [exBind_ok, decide_eq_true (Eq.refl ((l.length : Int))),
    decide_eq_true hnt, decide_eq_true hmi, pyAssert_true]
  have hx1 : (s.alloc (NdArray.zeros1 3)).1.get xr = some xa := by
    rw [Store.get_alloc_lt s _ xr (Store.lt_size_of_get hx)]
    exact hx
  obtain ⟨sX, rX, bx, hffmX, hextX, hrX, hgetX, hshX, hdaX⟩ :=
    asfortranRef_spec _ xr xa hx1
  rw [hffmX]
  simp only [exBind_ok]
  cases hws : force_float_matrix (PyObj.ndarray wa) with
  | error e =>
      exfalso
      unfold force_float_matrix at hws
      by_cases hd : wa.dtype = Dtype.float64 <;> simp [hd] at hws
  | ok wsA =>
      rfl

/-- A `tvgen` call only completes when both `ws` and `ps` are ndarrays. -/
theorem tvgen_ok_ndarray (ora : Oracle) (s : Store) (xr : Ref) (ws ds ps : PyObj)
    (n_threads max_iters : Int) (r : CallResult)
    (hok : tvgen ora s xr ws ds ps n_threads max_iters = Except.ok r) :
    (∃ a, ws = PyObj.ndarray a) ∧ (∃ b, ps = PyObj.ndarray b) := by
  unfold tvgen at hok
  cases hlw : pyLen ws with
  | error e => rw [hlw] at hok; exact absurd hok (by simp)
  | ok lw =>
  rw [hlw] at hok
  cases hld : pyLen ds with
  | error e => rw [hld] at hok; exact absurd hok (by simp)
  | ok ld =>
  rw [hld] at hok
  cases hlp : pyLen ps with
  | error e => rw [hlp] at hok; exact absurd hok (by simp)
  | ok lp =>
  rw [hlp] at hok
  simp only [exBind_ok] at hok
  cases ha1 : decide (lw = ld) with
  | false => rw [ha1] at hok; exact absurd hok (by simp)
  | true =>
  rw [ha1] at hok
  cases ha2 : decide (lw = lp) with
  | false => rw [ha2] at hok; exact absurd hok (by simp)
  | true =>
  rw [ha2] at hok
  cases ha3 : decide (1 ≤ n_threads) with
  | false => rw [ha3] at hok; exact absurd hok (by simp)
  | true =>
  rw [ha3] at hok
  cases ha4 : decide (0 ≤ max_iters) with
  | false => rw [ha4] at hok; exact absurd hok (by simp)
  | true =>
  rw [ha4] at hok
  simp only [pyAssert_true, exBind_ok] at hok
  cases hcv : asfortranRef (s.alloc (NdArray.zeros1 3)).1 xr with
  | error e => rw [hcv] at hok; exact absurd hok (by simp)
  | ok prx =>
  rw [hcv] at hok
  cases hws : force_float_matrix ws with
  | error e => rw [hws] at hok; exact absurd hok (by simp)
  | ok wsA =>
  rw [hws] at hok
  cases hps : force_float_matrix ps with
  | error e => rw [hps] at hok; exact absurd hok (by simp)
  | ok psA =>
  exact And.intro (force_float_matrix_ok_ndarray ws wsA hws)
    (force_float_matrix_ok_ndarray ps psA hps)


/-! ### Claims -/

/-- C1: the specification (and the source's own comment) says a two-term
problem with `ds = [1, 2]` on a 2-D signal takes the specialized
Douglas-Rachford path `DR2_TV`.  The dispatch expression
`len(ds) == 2 & ds[0] == 1 & ds[1] == 2` parses as the chained comparison
`len(ds) == (2 & ds[0]) == (1 & ds[1]) == 2`, whose last link `1 & d == 2`
can never hold, so at exactly the documented input the dispatcher invokes
the generic Proximal Dykstra `PD2_TV` instead. -/
theorem tvgen_2d_input_dispatches_pd2 :
    tvgenCond ds12 = Except.ok false ∧
    calledFn (tvgen Oracle0 st2x2 0 ws11 ds12 ws11 1 0) = some LibFn.PD2_TV ∧
    calledFn (tvgen Oracle0 st2x2 0 ws11 ds12 ws11 1 0) ≠ some LibFn.DR2_TV := by
  refine And.intro rfl (And.intro rfl ?_)
  intro h
  rw [show calledFn (tvgen Oracle0 st2x2 0 ws11 ds12 ws11 1 0)
    = some LibFn.PD2_TV from rfl] at h
  exact LibFn.noConfusion (Option.some.inj h)

/-- C2 counterexample: `tv1_1d` with the iterative `pn` method allocates
the 3-slot diagnostics buffer (the object at ref 2, shape `[3]`) and
passes it to the native call, but the single object returned to the
caller is the solution buffer (ref 1, shape `[4]`): the diagnostics
record is not part of the output. -/
theorem tv1_1d_pn_omits_diagnostics :
    retOf (tv1_1d Oracle0 st1v 0 1 (1/20) "pn") = some 1 ∧
    infoRefOf (tv1_1d Oracle0 st1v 0 1 (1/20) "pn") = some 2 ∧
    ((storeOf (tv1_1d Oracle0 st1v 0 1 (1/20) "pn")).get 1).map NdArray.shape = some [4] ∧
    ((storeOf (tv1_1d Oracle0 st1v 0 1 (1/20) "pn")).get 2).map NdArray.shape = some [3] ∧
    (1 : Ref) ≠ 2 := by
  refine And.intro rfl (And.intro rfl (And.intro rfl (And.intro rfl ?_)))
  intro h
  exact Nat.noConfusion (Nat.succ.inj h)

/-- C2 (amended): every solver entry point returns exactly one object,
the freshly allocated solution buffer; the diagnostics buffer it may
allocate and hand to the native solver is a distinct object and is never
the returned one. -/
theorem entry_points_return_only_solution :
    (∀ ora s xr w sigma method xa r, s.get xr = some xa →
      tv1_1d ora s xr w sigma method = Except.ok r →
      (∀ i, r.infoRef = some i → r.ret ≠ i) ∧
      (∃ ya, r.store.get r.ret = some ya ∧ ya.shape = [xa.size])) ∧
    (∀ ora s xr wr method sigma xa wa r, s.get xr = some xa → s.get wr = some wa →
      tv1w_1d ora s xr wr method sigma = Except.ok r →
      (∀ i, r.infoRef = some i → r.ret ≠ i) ∧
      (∃ ya, r.store.get r.ret = some ya ∧ ya.shape = [xa.size])) ∧
    (∀ ora s xr w method xa r, s.get xr = some xa →
      tv2_1d ora s xr w method = Except.ok r →
      (∀ i, r.infoRef = some i → r.ret ≠ i) ∧
      (∃ ya, r.store.get r.ret = some ya ∧ ya.shape = [xa.size])) ∧
    (∀ ora s xr w p method mi xa r, s.get xr = some xa →
      tvp_1d ora s xr w p method mi = Except.ok r →
      (∀ i, r.infoRef = some i → r.ret ≠ i) ∧
      (∃ ya, r.store.get r.ret = some ya ∧ ya.shape = [xa.size])) ∧
    (∀ ora s xr w nt mi method xa r, s.get xr = some xa →
      tv1_2d ora s xr w nt mi method = Except.ok r →
      (∀ i, r.infoRef = some i → r.ret ≠ i) ∧
      (∃ ya, r.store.get r.ret = some ya ∧ ya.shape = xa.shape)) ∧
    (∀ ora s xr wcr wrr mi nt xa wca wra M N r, s.get xr = some xa →
      s.get wcr = some wca → s.get wrr = some wra → xa.shape = [M, N] →
      tv1w_2d ora s xr wcr wrr mi nt = Except.ok r →
      (∀ i, r.infoRef = some i → r.ret ≠ i) ∧
      (∃ ya, r.store.get r.ret = some ya ∧ ya.shape = xa.shape)) ∧
    (∀ ora s xr wc wr2 pc pr nt mi xa r, s.get xr = some xa →
      tvp_2d ora s xr wc wr2 pc pr nt mi = Except.ok r →
      (∀ i, r.infoRef = some i → r.ret ≠ i) ∧
      (∃ ya, r.store.get r.ret = some ya ∧ ya.shape = xa.shape)) ∧
    (∀ ora s xr ws ds ps nt mi xa r, s.get xr = some xa →
      tvgen ora s xr ws ds ps nt mi = Except.ok r →
      (∀ i, r.infoRef = some i → r.ret ≠ i) ∧
      (∃ ya, r.store.get r.ret = some ya ∧ ya.shape = xa.shape)) := by
  refine And.intro ?_ (And.intro ?_ (And.intro ?_ (And.intro ?_ (And.intro ?_
    (And.intro ?_ (And.intro ?_ ?_))))))
  · intro ora s xr w sigma method xa r hx hok
    obtain ⟨_, _, h3, h4⟩ := tv1_1d_ok_spec ora s xr w sigma method xa r hx hok
    exact And.intro h3 h4
  · intro ora s xr wr method sigma xa wa r hx hw hok
    obtain ⟨_, _, h3, h4⟩ := tv1w_1d_ok_spec ora s xr wr method sigma xa wa r hx hw hok
    exact And.intro h3 h4
  · intro ora s xr w method xa r hx hok
    obtain ⟨_, _, h3, h4⟩ := tv2_1d_ok_spec ora s xr w method xa r hx hok
    exact And.intro h3 h4
  · intro ora s xr w p method mi xa r hx hok
    obtain ⟨_, _, h3, h4⟩ := tvp_1d_ok_spec ora s xr w p method mi xa r hx hok
    exact And.intro h3 h4
  · intro ora s xr w nt mi method xa r hx hok
    obtain ⟨_, _, h3, h4⟩ := tv1_2d_ok_spec ora s xr w nt mi method xa r hx hok
    exact And.intro h3 h4
  · intro ora s xr wcr wrr mi nt xa wca wra M N r hx hwc hwr hsh hok
    obtain ⟨_, _, h3, h4⟩ :=
      tv1w_2d_ok_spec ora s xr wcr wrr mi nt xa wca wra M N r hx hwc hwr hsh hok
    exact And.intro h3 h4
  · intro ora s xr wc wr2 pc pr nt mi xa r hx hok
    obtain ⟨_, _, h3, h4⟩ := tvp_2d_ok_spec ora s xr wc wr2 pc pr nt mi xa r hx hok
    exact And.intro h3 h4
  · intro ora s xr ws ds ps nt mi xa r hx hok
    obtain ⟨_, _, h3, h4⟩ := tvgen_ok_spec ora s xr ws ds ps nt mi xa r hx hok
    exact And.intro h3 h4

/-- C2 witness: at a concrete `pn` call the diagnostics buffer is ref 2
and the returned object is not it. -/
theorem entry_points_return_only_solution_witness :
    st1v.get 0 = some (NdArray.mk Dtype.float64 [4] [1, 2, 3, 4]) ∧
    (resOf (tv1_1d Oracle0 st1v 0 1 (1/20) "pn")).infoRef = some 2 ∧
    (resOf (tv1_1d Oracle0 st1v 0 1 (1/20) "pn")).ret ≠ 2 := by
  refine And.intro rfl (And.intro rfl ?_)
  have hok : tv1_1d Oracle0 st1v 0 1 (1/20) "pn"
      = Except.ok (resOf (tv1_1d Oracle0 st1v 0 1 (1/20) "pn")) := rfl
  exact (entry_points_return_only_solution.1 Oracle0 st1v 0 1 (1/20) "pn"
    (NdArray.mk Dtype.float64 [4] [1, 2, 3, 4]) _ rfl hok).1 2 rfl

/-- C3 counterexample: `tvgen`, unlike every other entry point, performs
no validation of its weights or norms: a call with a negative weight is
not rejected — it proceeds to dispatch a native solver call. -/
theorem tvgen_accepts_negative_weights :
    isOkB (tvgen Oracle0 st2x2 0 wsNeg ds12 ws11 1 0) = true ∧
    calledFn (tvgen Oracle0 st2x2 0 wsNeg ds12 ws11 1 0) = some LibFn.PD2_TV := by
  exact And.intro rfl rfl

/-- C3 (amended): all entry points except `tvgen` reject a negative
weight — and, where a norm is accepted, a norm `p < 1` — with
`AssertionError` before any native solver is invoked; `tvgen` checks
neither. -/
theorem entry_points_reject_invalid_parameters :
    (∀ ora s xr w sigma method, w < 0 →
      tv1_1d ora s xr w sigma method = Except.error PyErr.assertionError) ∧
    (∀ ora s xr wr method sigma wa q, s.get wr = some wa → q ∈ wa.data → q < 0 →
      tv1w_1d ora s xr wr method sigma = Except.error PyErr.assertionError) ∧
    (∀ ora s xr w method, w < 0 →
      tv2_1d ora s xr w method = Except.error PyErr.assertionError) ∧
    (∀ ora s xr w p method mi, w < 0 ∨ p < 1 →
      tvp_1d ora s xr w p method mi = Except.error PyErr.assertionError) ∧
    (∀ ora s xr w nt mi method, w < 0 →
      tv1_2d ora s xr w nt mi method = Except.error PyErr.assertionError) ∧
    (∀ ora s xr wcr wrr mi nt wca wra q, s.get wcr = some wca → s.get wrr = some wra →
      (q ∈ wca.data ∨ q ∈ wra.data) → q < 0 →
      tv1w_2d ora s xr wcr wrr mi nt = Except.error PyErr.assertionError) ∧
    (∀ ora s xr wc wr2 pc pr nt mi, wc < 0 ∨ wr2 < 0 ∨ pc < 1 ∨ pr < 1 →
      tvp_2d ora s xr wc wr2 pc pr nt mi = Except.error PyErr.assertionError) := by
  refine And.intro ?_ (And.intro ?_ (And.intro ?_ (And.intro ?_ (And.intro ?_
    (And.intro ?_ ?_)))))
  · exact fun ora s xr w sigma method h => tv1_1d_rejects_neg ora s xr w sigma method h
  · exact fun ora s xr wr method sigma wa q hw hq hneg =>
      tv1w_1d_rejects_neg ora s xr wr method sigma wa q hw hq hneg
  · exact fun ora s xr w method h => tv2_1d_rejects_neg ora s xr w method h
  · exact fun ora s xr w p method mi h => tvp_1d_rejects ora s xr w p method mi h
  · exact fun ora s xr w nt mi method h => tv1_2d_rejects_neg ora s xr w nt mi method h
  · exact fun ora s xr wcr wrr mi nt wca wra q hwc hwr hmem hneg =>
      tv1w_2d_rejects_neg ora s xr wcr wrr mi nt wca wra q hwc hwr
        (And.intro hmem hneg)
  · exact fun ora s xr wc wr2 pc pr nt mi h =>
      tvp_2d_rejects ora s xr wc wr2 pc pr nt mi h

/-- C3 witness: concrete rejections through the theorem. -/
theorem entry_points_reject_invalid_parameters_witness :
    ((-1 : ℚ) < 0 ∧
      tv1_1d Oracle0 st1v 0 (-1) (1/20) "tautstring"
        = Except.error PyErr.assertionError) ∧
    ((1 : ℚ) / 2 < 1 ∧
      tvp_1d Oracle0 st1v 0 1 (1/2) "gp" 0 = Except.error PyErr.assertionError) := by
  constructor
  · constructor
    · norm_num
    · exact entry_points_reject_invalid_parameters.1 Oracle0 st1v 0 (-1) (1/20)
        "tautstring" (by norm_num)
  · constructor
    · norm_num
    · exact entry_points_reject_invalid_parameters.2.2.2.1 Oracle0 st1v 0 1 (1/2) "gp" 0
        (Or.inr (by norm_num))

/-- C4 counterexample: `tv1w_1d` does not validate its method selector:
the unknown selector `"frobnicate"` is silently dispatched to the
projected-Newton solver rather than rejected. -/
theorem tv1w_1d_unknown_method_not_rejected :
    calledFn (tv1w_1d Oracle0 stW1 0 1 "frobnicate" (1/20)) = some LibFn.PN_TV1_Weighted ∧
    "frobnicate" ∉ (["tautstring", "pn"] : List String) := by
  exact And.intro rfl (by decide)

/-- C4 (amended): `tv1_1d`, `tv2_1d`, `tvp_1d` and `tv1_2d` reject a
method selector outside their enumerated set with `AssertionError`
before any solver is invoked; `tv1w_1d` performs no such validation and
silently maps every selector other than `'tautstring'` to projected
Newton. -/
theorem method_selector_validation :
    (∀ ora s xr w sigma method,
      method ∉ (["tautstring", "pn", "condat", "dp"] : List String) →
      tv1_1d ora s xr w sigma method = Except.error PyErr.assertionError) ∧
    (∀ ora s xr w method, method ∉ (["ms", "pg", "mspg"] : List String) →
      tv2_1d ora s xr w method = Except.error PyErr.assertionError) ∧
    (∀ ora s xr w p method mi, method ∉ (["gp", "fw", "gpfw"] : List String) →
      tvp_1d ora s xr w p method mi = Except.error PyErr.assertionError) ∧
    (∀ ora s xr w nt mi method,
      method ∉ (["dr", "pd", "yang", "condat", "chambolle-pock"] : List String) →
      tv1_2d ora s xr w nt mi method = Except.error PyErr.assertionError) ∧
    (∀ ora s xr wr method sigma xa wa, s.get xr = some xa → s.get wr = some wa →
      (∀ q ∈ wa.data, 0 ≤ q) → (xa.size : Int) - 1 = (wa.size : Int) →
      method ≠ "tautstring" →
      calledFn (tv1w_1d ora s xr wr method sigma) = some LibFn.PN_TV1_Weighted) := by
  refine And.intro ?_ (And.intro ?_ (And.intro ?_ (And.intro ?_ ?_)))
  · exact fun ora s xr w sigma method h => tv1_1d_rejects_method ora s xr w sigma method h
  · exact fun ora s xr w method h => tv2_1d_rejects_method ora s xr w method h
  · exact fun ora s xr w p method mi h => tvp_1d_rejects_method ora s xr w p method mi h
  · exact fun ora s xr w nt mi method h =>
      tv1_2d_rejects_method ora s xr w nt mi method h
  · exact fun ora s xr wr method sigma xa wa hx hw hall hsz hm =>
      tv1w_1d_dispatches_pn ora s xr wr method sigma xa wa hx hw hall hsz hm

/-- C4 witness: a concrete unknown selector is rejected by `tv1_1d`. -/
theorem method_selector_validation_witness :
    "bogus" ∉ (["tautstring", "pn", "condat", "dp"] : List String) ∧
    tv1_1d Oracle0 st1v 0 1 (1/20) "bogus" = Except.error PyErr.assertionError := by
  constructor
  · decide
  · exact method_selector_validation.1 Oracle0 st1v 0 1 (1/20) "bogus" (by decide)

/-- C5 counterexample: `tvp_1d` accepts a `max_iters` argument but does
not pass it to the native solver: with cap 7 the dispatched `GP_TVp`
call's arguments contain no integer 7 anywhere, and the lp solver
signature has no cap position. -/
theorem tvp_1d_ignores_max_iters :
    calledFn (tvp_1d Oracle0 st1v 0 1 2 "gp" 7) = some LibFn.GP_TVp ∧
    (argsOf (tvp_1d Oracle0 st1v 0 1 2 "gp" 7)).all (fun a => !(argIsInt a 7)) = true ∧
    maxItersIndex LibFn.GP_TVp = none := by
  exact And.intro rfl (And.intro rfl rfl)

/-- C5 (amended): `tv1_2d`, `tv1w_2d`, `tvp_2d` and `tvgen` pass the
caller-supplied iteration cap through to the native call, at exactly the
cap position of the dispatched cdef signature; `tvp_1d` accepts
`max_iters` but its lp solver signatures have no cap parameter and the
value is discarded. -/
theorem iteration_cap_passthrough :
    (∀ ora s xr w nt mi method r, tv1_2d ora s xr w nt mi method = Except.ok r →
      capArg (Except.ok r) = some (Arg.int mi)) ∧
    (∀ ora s xr wcr wrr mi nt r, tv1w_2d ora s xr wcr wrr mi nt = Except.ok r →
      capArg (Except.ok r) = some (Arg.int mi)) ∧
    (∀ ora s xr wc wr2 pc pr nt mi r,
      tvp_2d ora s xr wc wr2 pc pr nt mi = Except.ok r →
      capArg (Except.ok r) = some (Arg.int mi)) ∧
    (∀ ora s xr ws ds ps nt mi r, tvgen ora s xr ws ds ps nt mi = Except.ok r →
      capArg (Except.ok r) = some (Arg.int mi)) ∧
    (∀ ora s xr w p method mi r, tvp_1d ora s xr w p method mi = Except.ok r →
      Option.bind (calledFn (Except.ok r)) maxItersIndex = none) := by
  refine And.intro ?_ (And.intro ?_ (And.intro ?_ (And.intro ?_ ?_)))
  · exact fun ora s xr w nt mi method r hok => tv1_2d_cap ora s xr w nt mi method r hok
  · exact fun ora s xr wcr wrr mi nt r hok => tv1w_2d_cap ora s xr wcr wrr mi nt r hok
  · exact fun ora s xr wc wr2 pc pr nt mi r hok =>
      tvp_2d_cap ora s xr wc wr2 pc pr nt mi r hok
  · exact fun ora s xr ws ds ps nt mi r hok =>
      tvgen_cap ora s xr ws ds ps nt mi r hok
  · exact fun ora s xr w p method mi r hok =>
      tvp_1d_no_cap ora s xr w p method mi r hok

/-- C5 witness: a concrete `tv1_2d` call with cap 7 hands 7 to the
native call at the cap position. -/
theorem iteration_cap_passthrough_witness :
    tv1_2d Oracle0 st2x2 0 1 1 7 "dr"
      = Except.ok (resOf (tv1_2d Oracle0 st2x2 0 1 1 7 "dr")) ∧
    capArg (Except.ok (resOf (tv1_2d Oracle0 st2x2 0 1 1 7 "dr"))) = some (Arg.int 7) := by
  refine And.intro rfl ?_
  exact iteration_cap_passthrough.1 Oracle0 st2x2 0 1 1 7 "dr" _ rfl

/-- C6: `tv1w_2d` on an M×N signal rejects with `AssertionError`
whenever a weight entry is negative or the weight matrices do not have
shapes (M−1, N) and (M, N−1); when all these preconditions hold it
proceeds to the weighted Douglas-Rachford solver `DR2L1W_TV`. -/
theorem tv1w_2d_weight_validation :
    ∀ (ora : Oracle) (s : Store) (xr wcr wrr : Ref) (mi nt : Int)
      (xa wca wra : NdArray) (M N : Nat),
      s.get xr = some xa → s.get wcr = some wca → s.get wrr = some wra →
      xa.shape = [M, N] →
      ((¬ ((∀ q ∈ wca.data, 0 ≤ q) ∧ (∀ q ∈ wra.data, 0 ≤ q) ∧
          wca.shape.map (fun k => (k : Int)) = [(M : Int) - 1, (N : Int)] ∧
          wra.shape.map (fun k => (k : Int)) = [(M : Int), (N : Int) - 1]) →
        tv1w_2d ora s xr wcr wrr mi nt = Except.error PyErr.assertionError) ∧
       (((∀ q ∈ wca.data, 0 ≤ q) ∧ (∀ q ∈ wra.data, 0 ≤ q) ∧
          wca.shape.map (fun k => (k : Int)) = [(M : Int) - 1, (N : Int)] ∧
          wra.shape.map (fun k => (k : Int)) = [(M : Int), (N : Int) - 1]) →
        calledFn (tv1w_2d ora s xr wcr wrr mi nt) = some LibFn.DR2L1W_TV)) := by
  intro ora s xr wcr wrr mi nt xa wca wra M N hx hwc hwr hsh
  constructor
  · exact fun hviol =>
      tv1w_2d_rejects_cond ora s xr wcr wrr mi nt xa wca wra M N hx hwc hwr hsh hviol
  · intro hc
    exact tv1w_2d_proceeds ora s xr wcr wrr mi nt xa wca wra M N hx hwc hwr hsh
      hc.1 hc.2.1 hc.2.2.1 hc.2.2.2

/-- C6 witness: a concrete well-shaped weighted 2-D call proceeds to
`DR2L1W_TV`. -/
theorem tv1w_2d_weight_validation_witness :
    stW2.get 0 = some xMat22 ∧ xMat22.shape = [2, 2] ∧
    calledFn (tv1w_2d Oracle0 stW2 0 1 2 0 1) = some LibFn.DR2L1W_TV := by
  refine And.intro rfl (And.intro rfl ?_)
  exact (tv1w_2d_weight_validation Oracle0 stW2 0 1 2 0 1 xMat22
    (NdArray.mk Dtype.float64 [1, 2] [1, 1]) (NdArray.mk Dtype.float64 [2, 1] [1, 1]) 2 2
    rfl rfl rfl rfl).2
    (by refine And.intro ?_ (And.intro ?_ (And.intro ?_ ?_)) <;> decide)

/-- C7: with zero weight — a zero scalar weight, or all-zero per-edge
weights in the weighted variants — the TV proximity problem's unique
optimum is the input itself, so the solver (modelled from the spec as
returning the minimizer) returns `x` exactly. -/
theorem zero_weight_identity :
    (∀ (P : List ℚ → ℚ) (x y : List ℚ), IsTVSolution P x 0 y → y = x) ∧
    (∀ (ws x y : List ℚ), (∀ q ∈ ws, q = 0) →
      IsTVSolution (wTvSum ws) x 1 y → y = x) := by
  have key : ∀ (P : List ℚ → ℚ) (w : ℚ) (x y : List ℚ),
      (∀ z, w * P z = 0) → IsTVSolution P x w y → y = x := by
    intro P w x y hz hsol
    obtain ⟨hlen, hmin⟩ := hsol
    have h1 := hmin x rfl
    unfold tvObjective at h1
    rw [hz, hz, sqDiff_self] at h1
    have h2 : sqDiff x y ≤ 0 := by linarith
    have h3 : sqDiff x y = 0 := le_antisymm h2 (sqDiff_nonneg x y)
    exact sqDiff_eq_zero x y hlen h3
  constructor
  · intro P x y hsol
    exact key P 0 x y (fun z => by ring) hsol
  · intro ws x y hz hsol
    refine key (wTvSum ws) 1 x y (fun z => ?_) hsol
    rw [wTvSum_zero ws z hz]
    ring

/-- C7 witness: the input `[1, 2]` is itself the zero-weight solution,
and the theorem returns it unchanged. -/
theorem zero_weight_identity_witness :
    IsTVSolution tvSum [1, 2] 0 [1, 2] ∧ ([1, 2] : List ℚ) = [1, 2] := by
  have hsol : IsTVSolution tvSum [1, 2] 0 [1, 2] := by
    constructor
    · rfl
    · intro z hz
      exact tvObjective_zero_self_le tvSum [1, 2] z
  exact And.intro hsol (zero_weight_identity.1 tvSum [1, 2] [1, 2] hsol)

/-- C8: every solver entry point leaves the caller's arrays — the input
signal and any weight arrays — unchanged, and returns a freshly
allocated buffer (no alias of any argument) of the input's shape.  The
native write behaviour is the spec-modelled `runNative`: solvers write
only the solution and diagnostics buffers. -/
theorem entry_points_preserve_inputs :
    (∀ ora s xr w sigma method xa r, s.get xr = some xa →
      tv1_1d ora s xr w sigma method = Except.ok r →
      (∀ t, t < s.size → r.store.get t = s.get t) ∧ s.size ≤ r.ret ∧
      (∃ ya, r.store.get r.ret = some ya ∧ ya.shape = [xa.size])) ∧
    (∀ ora s xr wr method sigma xa wa r, s.get xr = some xa → s.get wr = some wa →
      tv1w_1d ora s xr wr method sigma = Except.ok r →
      (∀ t, t < s.size → r.store.get t = s.get t) ∧ s.size ≤ r.ret ∧
      (∃ ya, r.store.get r.ret = some ya ∧ ya.shape = [xa.size])) ∧
    (∀ ora s xr w method xa r, s.get xr = some xa →
      tv2_1d ora s xr w method = Except.ok r →
      (∀ t, t < s.size → r.store.get t = s.get t) ∧ s.size ≤ r.ret ∧
      (∃ ya, r.store.get r.ret = some ya ∧ ya.shape = [xa.size])) ∧
    (∀ ora s xr w p method mi xa r, s.get xr = some xa →
      tvp_1d ora s xr w p method mi = Except.ok r →
      (∀ t, t < s.size → r.store.get t = s.get t) ∧ s.size ≤ r.ret ∧
      (∃ ya, r.store.get r.ret = some ya ∧ ya.shape = [xa.size])) ∧
    (∀ ora s xr w nt mi method xa r, s.get xr = some xa →
      tv1_2d ora s xr w nt mi method = Except.ok r →
      (∀ t, t < s.size → r.store.get t = s.get t) ∧ s.size ≤ r.ret ∧
      (∃ ya, r.store.get r.ret = some ya ∧ ya.shape = xa.shape)) ∧
    (∀ ora s xr wcr wrr mi nt xa wca wra M N r, s.get xr = some xa →
      s.get wcr = some wca → s.get wrr = some wra → xa.shape = [M, N] →
      tv1w_2d ora s xr wcr wrr mi nt = Except.ok r →
      (∀ t, t < s.size → r.store.get t = s.get t) ∧ s.size ≤ r.ret ∧
      (∃ ya, r.store.get r.ret = some ya ∧ ya.shape = xa.shape)) ∧
    (∀ ora s xr wc wr2 pc pr nt mi xa r, s.get xr = some xa →
      tvp_2d ora s xr wc wr2 pc pr nt mi = Except.ok r →
      (∀ t, t < s.size → r.store.get t = s.get t) ∧ s.size ≤ r.ret ∧
      (∃ ya, r.store.get r.ret = some ya ∧ ya.shape = xa.shape)) ∧
    (∀ ora s xr ws ds ps nt mi xa r, s.get xr = some xa →
      tvgen ora s xr ws ds ps nt mi = Except.ok r →
      (∀ t, t < s.size → r.store.get t = s.get t) ∧ s.size ≤ r.ret ∧
      (∃ ya, r.store.get r.ret = some ya ∧ ya.shape = xa.shape)) := by
  refine And.intro ?_ (And.intro ?_ (And.intro ?_ (And.intro ?_ (And.intro ?_
    (And.intro ?_ (And.intro ?_ ?_))))))
  · intro ora s xr w sigma method xa r hx hok
    obtain ⟨h1, h2, _, h4⟩ := tv1_1d_ok_spec ora s xr w sigma method xa r hx hok
    exact And.intro h1 (And.intro h2 h4)
  · intro ora s xr wr method sigma xa wa r hx hw hok
    obtain ⟨h1, h2, _, h4⟩ := tv1w_1d_ok_spec ora s xr wr method sigma xa wa r hx hw hok
    exact And.intro h1 (And.intro h2 h4)
  · intro ora s xr w method xa r hx hok
    obtain ⟨h1, h2, _, h4⟩ := tv2_1d_ok_spec ora s xr w method xa r hx hok
    exact And.intro h1 (And.intro h2 h4)
  · intro ora s xr w p method mi xa r hx hok
    obtain ⟨h1, h2, _, h4⟩ := tvp_1d_ok_spec ora s xr w p method mi xa r hx hok
    exact And.intro h1 (And.intro h2 h4)
  · intro ora s xr w nt mi method xa r hx hok
    obtain ⟨h1, h2, _, h4⟩ := tv1_2d_ok_spec ora s xr w nt mi method xa r hx hok
    exact And.intro h1 (And.intro h2 h4)
  · intro ora s xr wcr wrr mi nt xa wca wra M N r hx hwc hwr hsh hok
    obtain ⟨h1, h2, _, h4⟩ :=
      tv1w_2d_ok_spec ora s xr wcr wrr mi nt xa wca wra M N r hx hwc hwr hsh hok
    exact And.intro h1 (And.intro h2 h4)
  · intro ora s xr wc wr2 pc pr nt mi xa r hx hok
    obtain ⟨h1, h2, _, h4⟩ := tvp_2d_ok_spec ora s xr wc wr2 pc pr nt mi xa r hx hok
    exact And.intro h1 (And.intro h2 h4)
  · intro ora s xr ws ds ps nt mi xa r hx hok
    obtain ⟨h1, h2, _, h4⟩ := tvgen_ok_spec ora s xr ws ds ps nt mi xa r hx hok
    exact And.intro h1 (And.intro h2 h4)

/-- C8 witness: a concrete `tv1_1d` call leaves the caller's array at
ref 0 untouched and returns a fresh ref. -/
theorem entry_points_preserve_inputs_witness :
    st1v.get 0 = some (NdArray.mk Dtype.float64 [4] [1, 2, 3, 4]) ∧
    (resOf (tv1_1d Oracle0 st1v 0 1 (1/20) "tautstring")).store.get 0 = st1v.get 0 ∧
    st1v.size ≤ (resOf (tv1_1d Oracle0 st1v 0 1 (1/20) "tautstring")).ret := by
  have hok : tv1_1d Oracle0 st1v 0 1 (1/20) "tautstring"
      = Except.ok (resOf (tv1_1d Oracle0 st1v 0 1 (1/20) "tautstring")) := rfl
  have h := entry_points_preserve_inputs.1 Oracle0 st1v 0 1 (1/20) "tautstring"
    (NdArray.mk Dtype.float64 [4] [1, 2, 3, 4]) _ rfl hok
  exact And.intro rfl (And.intro (h.1 0 (by decide)) h.2.1)

/-- C9: a `tvgen` call whose `ws` (or `ps`) is a built-in Python list
fails with `AttributeError` in `force_float_matrix` (lists have no
`.dtype`), before any solver is invoked; the call only completes when
`ws` and `ps` are ndarrays. -/
theorem tvgen_requires_ndarray_weights :
    (∀ ora s xr l ds ps nt mi xa, s.get xr = some xa →
      pyLen ds = Except.ok (l.length : Int) → pyLen ps = Except.ok (l.length : Int) →
      1 ≤ nt → 0 ≤ mi →
      tvgen ora s xr (PyObj.pylist l) ds ps nt mi
        = Except.error PyErr.attributeError) ∧
    (∀ ora s xr wa l ds nt mi xa, s.get xr = some xa →
      pyLen (PyObj.ndarray wa) = Except.ok (l.length : Int) →
      pyLen ds = Except.ok (l.length : Int) → 1 ≤ nt → 0 ≤ mi →
      tvgen ora s xr (PyObj.ndarray wa) ds (PyObj.pylist l) nt mi
        = Except.error PyErr.attributeError) ∧
    (∀ ora s xr ws ds ps nt mi r, tvgen ora s xr ws ds ps nt mi = Except.ok r →
      (∃ a, ws = PyObj.ndarray a) ∧ (∃ b, ps = PyObj.ndarray b)) := by
  refine And.intro ?_ (And.intro ?_ ?_)
  · exact fun ora s xr l ds ps nt mi xa hx hld hlp hnt hmi =>
      tvgen_ws_list_fails ora s xr l ds ps nt mi xa hx hld hlp hnt hmi
  · exact fun ora s xr wa l ds nt mi xa hx hlw hld hnt hmi =>
      tvgen_ps_list_fails ora s xr wa l ds nt mi xa hx hlw hld hnt hmi
  · exact fun ora s xr ws ds ps nt mi r hok =>
      tvgen_ok_ndarray ora s xr ws ds ps nt mi r hok

/-- C9 witness: the documented list-typed `ws` dies with
`AttributeError` before any dispatch. -/
theorem tvgen_requires_ndarray_weights_witness :
    st2x2.get 0 = some xMat22 ∧
    tvgen Oracle0 st2x2 0 wsList ds12 ws11 1 0 = Except.error PyErr.attributeError := by
  refine And.intro rfl ?_
  exact tvgen_requires_ndarray_weights.1 Oracle0 st2x2 0
    [PyObj.float 1, PyObj.float 1] ds12 ws11 1 0 xMat22 rfl rfl rfl (by decide) (by decide)

/-- C10: `force_float_scalar` agrees with Python's `float()` on every
input the latter accepts, and `force_float_matrix` always produces a
float64 array, returns float64 input unchanged, and is idempotent. -/
theorem force_float_conversions :
    (∀ (x : PyObj) (q : ℚ), pyFloatFn x = Except.ok q →
      force_float_scalar x = Except.ok q) ∧
    (∀ a : NdArray, ∃ b, force_float_matrix (PyObj.ndarray a) = Except.ok b ∧
      b.dtype = Dtype.float64) ∧
    (∀ a : NdArray, a.dtype = Dtype.float64 →
      force_float_matrix (PyObj.ndarray a) = Except.ok a) ∧
    (∀ (x : PyObj) (a : NdArray), force_float_matrix x = Except.ok a →
      force_float_matrix (PyObj.ndarray a) = Except.ok a) := by
  have hdt : ∀ a : NdArray, a.dtype = Dtype.float64 →
      force_float_matrix (PyObj.ndarray a) = Except.ok a := by
    intro a ha
    show (if a.dtype ≠ Dtype.float64 then Except.ok { a with dtype := Dtype.float64 }
      else Except.ok a) = Except.ok a
    rw [if_neg (fun hne => hne ha)]
  have hres : ∀ a : NdArray, ∃ b, force_float_matrix (PyObj.ndarray a) = Except.ok b ∧
      b.dtype = Dtype.float64 := by
    intro a
    by_cases hd : a.dtype = Dtype.float64
    · exact Exists.intro a (And.intro (hdt a hd) hd)
    · refine Exists.intro { a with dtype := Dtype.float64 } (And.intro ?_ rfl)
      show (if a.dtype ≠ Dtype.float64 then Except.ok { a with dtype := Dtype.float64 }
        else Except.ok a) = Except.ok { a with dtype := Dtype.float64 }
      rw [if_pos hd]
  refine And.intro ?_ (And.intro hres (And.intro hdt ?_))
  · intro x q h
    cases x with
    | float q2 => exact h
    | int n => exact h
    | bool b => exact h
    | ndarray a => exact Except.noConfusion h
    | pylist l => exact Except.noConfusion h
  · intro x a h
    obtain ⟨b, hx⟩ := force_float_matrix_ok_ndarray x a h
    subst hx
    have hda : a.dtype = Dtype.float64 := by
      have h2 : (if b.dtype ≠ Dtype.float64 then
          Except.ok { b with dtype := Dtype.float64 }
        else Except.ok b) = Except.ok a := h
      by_cases hd : b.dtype = Dtype.float64
      · rw [if_neg (fun hne => hne hd)] at h2
        rw [← Except.ok.inj h2]
        exact hd
      · rw [if_pos hd] at h2
        rw [← Except.ok.inj h2]
    exact hdt a hda

/-- C10 witness: concrete conversions through the theorem. -/
theorem force_float_conversions_witness :
    pyFloatFn (PyObj.int 3) = Except.ok 3 ∧
    force_float_scalar (PyObj.int 3) = Except.ok 3 ∧
    xMat22.dtype = Dtype.float64 ∧
    force_float_matrix (PyObj.ndarray xMat22) = Except.ok xMat22 := by
  refine And.intro rfl (And.intro ?_ (And.intro rfl ?_))
  · exact force_float_conversions.1 (PyObj.int 3) 3 rfl
  · exact force_float_conversions.2.2.1 xMat22 rfl
